import Mathlib

/-!
# Response decoding of the ONVIF SDK (`sdk/sdk.go`)

A shallow embedding of `Fault`, `Fault.Error` and `ReadAndParse`, with the
effects of `ReadAndParse` (log event, body read, body close, the two XML
parses) recorded in a trace, followed by the properties proved about them.

`ReadAndParse` takes the XML library as a parameter, so that what is proved
about it holds for every behaviour of `xml.Unmarshal`. A model of the decoder
of `encoding/xml` instantiates the parameter where a concrete body is decoded.

Go `string` and `[]byte` values are embedded as Lean `String`, that is, as the
text they hold in UTF-8; a body that is not valid UTF-8 has no counterpart here.
-/

namespace Sdk

/-! ## Values of the source -/

/-- The struct `Fault` (sdk.go, lines 33-39). -/
structure Fault where
  StatusCode : Int
  Code : String
  Subcode : String
  Reason : String
deriving DecidableEq, Repr

/-- The function-local struct `Envelope` of `ReadAndParse` (sdk.go, lines 59-61). -/
structure Envelope where
  Fault : Fault
deriving DecidableEq, Repr

/-- Go `error` values that can flow through `ReadAndParse`. -/
inductive GoError where
  /-- The value `io.EOF`. -/
  | eof
  /-- An `*xml.SyntaxError` with its message (the line number is not kept). -/
  | syntaxError (msg : String)
  /-- A `*strconv.NumError`: the text that failed to parse and the reason. -/
  | numError (num : String) (reason : String)
  /-- The error of the decoder for an XML declaration with a version other than
  1.0 (`xml: unsupported version ...; only version 1.0 is supported`). -/
  | unsupportedVersion (ver : String)
  /-- The error of the decoder for an XML declaration with an encoding other
  than UTF-8 (`xml: encoding ... declared but Decoder.CharsetReader is nil`). -/
  | unsupportedEncoding (enc : String)
  /-- Any other plain error value, such as a transport error of the body stream. -/
  | plain (msg : String)
  /-- The `*errors.Err` built by `errors.Annotate(previous, message)`. -/
  | annotated (previous : GoError) (message : String)
  /-- A `*Fault` used as an error. -/
  | fault (f : Fault)
deriving DecidableEq, Repr

/-- Whether an error value is a `Fault`. -/
def GoError.isFault : GoError → Bool
  | .fault _ => true
  | _ => false

/-- The result of `errors.Annotate(other, message)` of juju/errors: `nil` for a
`nil` error, otherwise a new error that wraps `other` under `message`. -/
def Annotate (other : Option GoError) (message : String) : Option GoError :=
  match other with
  | none => none
  | some e => some (GoError.annotated e message)

/-! ## `fmt.Sprintf`, for the verbs of `Fault.Error` -/

/-- An operand of `fmt.Sprintf`. -/
inductive FmtArg where
  | int (n : Int)
  | str (s : String)

/-- Decimal rendering of an `int`, as the verb `%d` prints it. -/
def formatDecimal : Int → String
  | Int.ofNat n => Nat.repr n
  | Int.negSucc n => "-" ++ Nat.repr (n + 1)

/-- The formatting loop of `fmt.Sprintf` for the verbs `%d` (with an integer
operand) and `%s` (with a string operand); every other character of the format
is copied. -/
def sprintfChars : List Char → List FmtArg → List Char
  | [], _ => []
  | '%' :: 'd' :: rest, FmtArg.int n :: args => (formatDecimal n).data ++ sprintfChars rest args
  | '%' :: 's' :: rest, FmtArg.str s :: args => s.data ++ sprintfChars rest args
  | c :: rest, args => c :: sprintfChars rest args

/-- The call `fmt.Sprintf(format, args...)`. -/
def Sprintf (format : String) (args : List FmtArg) : String :=
  String.mk (sprintfChars format.data args)

/-- The method `Fault.Error` (sdk.go, lines 41-43). -/
def Fault.Error (f : Fault) : String :=
  Sprintf "http-status: %d, code: %s/%s, detail: %s"
    [FmtArg.int f.StatusCode, FmtArg.str f.Code, FmtArg.str f.Subcode, FmtArg.str f.Reason]

/-! ## A model of the decoder of `encoding/xml`

`xml.Unmarshal` runs a `Decoder` in strict mode over the body. The model follows
`Decoder.rawToken`, `Decoder.Token`, `Decoder.Skip`, `Decoder.unmarshal` and
`Decoder.unmarshalPath` of the Go library as of its recent releases (a name
with two colons is refused, a value nested deeper than `maxUnmarshalDepth` is
an error), for values built from structs, strings and integers whose fields
carry no option and no name space in their tags.

Two things are left out. The line number that a syntax error carries is not
kept. A name-space prefix is not translated to its URI: no field of the source
names a name space, so the decoder compares local names only. -/

/-- The type `xml.Name`; `Space` holds the prefix as written. -/
structure Name where
  Space : String
  Local : String
deriving DecidableEq, Repr

/-- The type `xml.Attr`. -/
structure Attr where
  Name : Name
  Value : String
deriving DecidableEq, Repr

/-- The type `xml.Token`. -/
inductive Token where
  | StartElement (name : Name) (attr : List Attr)
  | EndElement (name : Name)
  | CharData (data : List Char)
  | Comment (data : List Char)
  | ProcInst (target : String) (inst : List Char)
  | Directive (data : List Char)
deriving DecidableEq, Repr

/-- The result of a loop of the model that has used up its step bound. The
bounds are chosen so that this does not happen (see `xmlUnmarshal_fuel`). -/
def outOfFuel : GoError := GoError.plain "model: out of fuel"

/-- The error `errUnmarshalDepth` of a value nested too deep. -/
def errUnmarshalDepth : GoError := GoError.plain "exceeded max depth"

/-- The constant `maxUnmarshalDepth`. -/
def maxUnmarshalDepth : Nat := 10000

/-- The error that `mustgetc` leaves at the end of the input. -/
def unexpectedEOF : GoError := GoError.syntaxError "unexpected EOF"

/-- The function `isNameByte`. -/
def isNameByte (c : Char) : Bool :=
  ('A' ≤ c && c ≤ 'Z') || ('a' ≤ c && c ≤ 'z') || ('0' ≤ c && c ≤ '9') ||
    c == '_' || c == ':' || c == '.' || c == '-'

/-- Whether a code point lies in one of the ranges of a table (`unicode.Is`). -/
def inRanges (n : Nat) : List (Nat × Nat) → Bool
  | [] => false
  | (lo, hi) :: rest => (lo ≤ n && n ≤ hi) || inRanges n rest

/-- The ranges of the table `first`: the colon, the underscore and the letters
of XML 1.0 (the productions `BaseChar` and `Ideographic` of its appendix B). -/
def firstTable : List (Nat × Nat) :=
  [(0x003A, 0x003A), (0x0041, 0x005A), (0x005F, 0x005F), (0x0061, 0x007A), (0x00C0, 0x00D6),
   (0x00D8, 0x00F6), (0x00F8, 0x00FF), (0x0100, 0x0131), (0x0134, 0x013E), (0x0141, 0x0148),
   (0x014A, 0x017E), (0x0180, 0x01C3), (0x01CD, 0x01F0), (0x01F4, 0x01F5), (0x01FA, 0x0217),
   (0x0250, 0x02A8), (0x02BB, 0x02C1), (0x0386, 0x0386), (0x0388, 0x038A), (0x038C, 0x038C),
   (0x038E, 0x03A1), (0x03A3, 0x03CE), (0x03D0, 0x03D6), (0x03DA, 0x03DA), (0x03DC, 0x03DC),
   (0x03DE, 0x03DE), (0x03E0, 0x03E0), (0x03E2, 0x03F3), (0x0401, 0x040C), (0x040E, 0x044F),
   (0x0451, 0x045C), (0x045E, 0x0481), (0x0490, 0x04C4), (0x04C7, 0x04C8), (0x04CB, 0x04CC),
   (0x04D0, 0x04EB), (0x04EE, 0x04F5), (0x04F8, 0x04F9), (0x0531, 0x0556), (0x0559, 0x0559),
   (0x0561, 0x0586), (0x05D0, 0x05EA), (0x05F0, 0x05F2), (0x0621, 0x063A), (0x0641, 0x064A),
   (0x0671, 0x06B7), (0x06BA, 0x06BE), (0x06C0, 0x06CE), (0x06D0, 0x06D3), (0x06D5, 0x06D5),
   (0x06E5, 0x06E6), (0x0905, 0x0939), (0x093D, 0x093D), (0x0958, 0x0961), (0x0985, 0x098C),
   (0x098F, 0x0990), (0x0993, 0x09A8), (0x09AA, 0x09B0), (0x09B2, 0x09B2), (0x09B6, 0x09B9),
   (0x09DC, 0x09DD), (0x09DF, 0x09E1), (0x09F0, 0x09F1), (0x0A05, 0x0A0A), (0x0A0F, 0x0A10),
   (0x0A13, 0x0A28), (0x0A2A, 0x0A30), (0x0A32, 0x0A33), (0x0A35, 0x0A36), (0x0A38, 0x0A39),
   (0x0A59, 0x0A5C), (0x0A5E, 0x0A5E), (0x0A72, 0x0A74), (0x0A85, 0x0A8B), (0x0A8D, 0x0A8D),
   (0x0A8F, 0x0A91), (0x0A93, 0x0AA8), (0x0AAA, 0x0AB0), (0x0AB2, 0x0AB3), (0x0AB5, 0x0AB9),
   (0x0ABD, 0x0ABD), (0x0AE0, 0x0AE0), (0x0B05, 0x0B0C), (0x0B0F, 0x0B10), (0x0B13, 0x0B28),
   (0x0B2A, 0x0B30), (0x0B32, 0x0B33), (0x0B36, 0x0B39), (0x0B3D, 0x0B3D), (0x0B5C, 0x0B5D),
   (0x0B5F, 0x0B61), (0x0B85, 0x0B8A), (0x0B8E, 0x0B90), (0x0B92, 0x0B95), (0x0B99, 0x0B9A),
   (0x0B9C, 0x0B9C), (0x0B9E, 0x0B9F), (0x0BA3, 0x0BA4), (0x0BA8, 0x0BAA), (0x0BAE, 0x0BB5),
   (0x0BB7, 0x0BB9), (0x0C05, 0x0C0C), (0x0C0E, 0x0C10), (0x0C12, 0x0C28), (0x0C2A, 0x0C33),
   (0x0C35, 0x0C39), (0x0C60, 0x0C61), (0x0C85, 0x0C8C), (0x0C8E, 0x0C90), (0x0C92, 0x0CA8),
   (0x0CAA, 0x0CB3), (0x0CB5, 0x0CB9), (0x0CDE, 0x0CDE), (0x0CE0, 0x0CE1), (0x0D05, 0x0D0C),
   (0x0D0E, 0x0D10), (0x0D12, 0x0D28), (0x0D2A, 0x0D39), (0x0D60, 0x0D61), (0x0E01, 0x0E2E),
   (0x0E30, 0x0E30), (0x0E32, 0x0E33), (0x0E40, 0x0E45), (0x0E81, 0x0E82), (0x0E84, 0x0E84),
   (0x0E87, 0x0E88), (0x0E8A, 0x0E8A), (0x0E8D, 0x0E8D), (0x0E94, 0x0E97), (0x0E99, 0x0E9F),
   (0x0EA1, 0x0EA3), (0x0EA5, 0x0EA5), (0x0EA7, 0x0EA7), (0x0EAA, 0x0EAB), (0x0EAD, 0x0EAE),
   (0x0EB0, 0x0EB0), (0x0EB2, 0x0EB3), (0x0EBD, 0x0EBD), (0x0EC0, 0x0EC4), (0x0F40, 0x0F47),
   (0x0F49, 0x0F69), (0x10A0, 0x10C5), (0x10D0, 0x10F6), (0x1100, 0x1100), (0x1102, 0x1103),
   (0x1105, 0x1107), (0x1109, 0x1109), (0x110B, 0x110C), (0x110E, 0x1112), (0x113C, 0x113C),
   (0x113E, 0x113E), (0x1140, 0x1140), (0x114C, 0x114C), (0x114E, 0x114E), (0x1150, 0x1150),
   (0x1154, 0x1155), (0x1159, 0x1159), (0x115F, 0x1161), (0x1163, 0x1163), (0x1165, 0x1165),
   (0x1167, 0x1167), (0x1169, 0x1169), (0x116D, 0x116E), (0x1172, 0x1173), (0x1175, 0x1175),
   (0x119E, 0x119E), (0x11A8, 0x11A8), (0x11AB, 0x11AB), (0x11AE, 0x11AF), (0x11B7, 0x11B8),
   (0x11BA, 0x11BA), (0x11BC, 0x11C2), (0x11EB, 0x11EB), (0x11F0, 0x11F0), (0x11F9, 0x11F9),
   (0x1E00, 0x1E9B), (0x1EA0, 0x1EF9), (0x1F00, 0x1F15), (0x1F18, 0x1F1D), (0x1F20, 0x1F45),
   (0x1F48, 0x1F4D), (0x1F50, 0x1F57), (0x1F59, 0x1F59), (0x1F5B, 0x1F5B), (0x1F5D, 0x1F5D),
   (0x1F5F, 0x1F7D), (0x1F80, 0x1FB4), (0x1FB6, 0x1FBC), (0x1FBE, 0x1FBE), (0x1FC2, 0x1FC4),
   (0x1FC6, 0x1FCC), (0x1FD0, 0x1FD3), (0x1FD6, 0x1FDB), (0x1FE0, 0x1FEC), (0x1FF2, 0x1FF4),
   (0x1FF6, 0x1FFC), (0x2126, 0x2126), (0x212A, 0x212B), (0x212E, 0x212E), (0x2180, 0x2182),
   (0x3007, 0x3007), (0x3021, 0x3029), (0x3041, 0x3094), (0x30A1, 0x30FA), (0x3105, 0x312C),
   (0x4E00, 0x9FA5), (0xAC00, 0xD7A3)]

/-- The ranges of the table `second`: the hyphen, the full stop and the digits,
combining characters and extenders of XML 1.0 (appendix B). -/
def secondTable : List (Nat × Nat) :=
  [(0x002D, 0x002E), (0x0030, 0x0039), (0x00B7, 0x00B7), (0x02D0, 0x02D0), (0x02D1, 0x02D1),
   (0x0300, 0x0345), (0x0360, 0x0361), (0x0387, 0x0387), (0x0483, 0x0486), (0x0591, 0x05A1),
   (0x05A3, 0x05B9), (0x05BB, 0x05BD), (0x05BF, 0x05BF), (0x05C1, 0x05C2), (0x05C4, 0x05C4),
   (0x0640, 0x0640), (0x064B, 0x0652), (0x0660, 0x0669), (0x0670, 0x0670), (0x06D6, 0x06DC),
   (0x06DD, 0x06DF), (0x06E0, 0x06E4), (0x06E7, 0x06E8), (0x06EA, 0x06ED), (0x06F0, 0x06F9),
   (0x0901, 0x0903), (0x093C, 0x093C), (0x093E, 0x094C), (0x094D, 0x094D), (0x0951, 0x0954),
   (0x0962, 0x0963), (0x0966, 0x096F), (0x0981, 0x0983), (0x09BC, 0x09BC), (0x09BE, 0x09BE),
   (0x09BF, 0x09BF), (0x09C0, 0x09C4), (0x09C7, 0x09C8), (0x09CB, 0x09CD), (0x09D7, 0x09D7),
   (0x09E2, 0x09E3), (0x09E6, 0x09EF), (0x0A02, 0x0A02), (0x0A3C, 0x0A3C), (0x0A3E, 0x0A3E),
   (0x0A3F, 0x0A3F), (0x0A40, 0x0A42), (0x0A47, 0x0A48), (0x0A4B, 0x0A4D), (0x0A66, 0x0A6F),
   (0x0A70, 0x0A71), (0x0A81, 0x0A83), (0x0ABC, 0x0ABC), (0x0ABE, 0x0AC5), (0x0AC7, 0x0AC9),
   (0x0ACB, 0x0ACD), (0x0AE6, 0x0AEF), (0x0B01, 0x0B03), (0x0B3C, 0x0B3C), (0x0B3E, 0x0B43),
   (0x0B47, 0x0B48), (0x0B4B, 0x0B4D), (0x0B56, 0x0B57), (0x0B66, 0x0B6F), (0x0B82, 0x0B83),
   (0x0BBE, 0x0BC2), (0x0BC6, 0x0BC8), (0x0BCA, 0x0BCD), (0x0BD7, 0x0BD7), (0x0BE7, 0x0BEF),
   (0x0C01, 0x0C03), (0x0C3E, 0x0C44), (0x0C46, 0x0C48), (0x0C4A, 0x0C4D), (0x0C55, 0x0C56),
   (0x0C66, 0x0C6F), (0x0C82, 0x0C83), (0x0CBE, 0x0CC4), (0x0CC6, 0x0CC8), (0x0CCA, 0x0CCD),
   (0x0CD5, 0x0CD6), (0x0CE6, 0x0CEF), (0x0D02, 0x0D03), (0x0D3E, 0x0D43), (0x0D46, 0x0D48),
   (0x0D4A, 0x0D4D), (0x0D57, 0x0D57), (0x0D66, 0x0D6F), (0x0E31, 0x0E31), (0x0E34, 0x0E3A),
   (0x0E46, 0x0E46), (0x0E47, 0x0E4E), (0x0E50, 0x0E59), (0x0EB1, 0x0EB1), (0x0EB4, 0x0EB9),
   (0x0EBB, 0x0EBC), (0x0EC6, 0x0EC6), (0x0EC8, 0x0ECD), (0x0ED0, 0x0ED9), (0x0F18, 0x0F19),
   (0x0F20, 0x0F29), (0x0F35, 0x0F35), (0x0F37, 0x0F37), (0x0F39, 0x0F39), (0x0F3E, 0x0F3E),
   (0x0F3F, 0x0F3F), (0x0F71, 0x0F84), (0x0F86, 0x0F8B), (0x0F90, 0x0F95), (0x0F97, 0x0F97),
   (0x0F99, 0x0FAD), (0x0FB1, 0x0FB7), (0x0FB9, 0x0FB9), (0x20D0, 0x20DC), (0x20E1, 0x20E1),
   (0x3005, 0x3005), (0x302A, 0x302F), (0x3031, 0x3035), (0x3099, 0x3099), (0x309A, 0x309A),
   (0x309D, 0x309E), (0x30FC, 0x30FE)]

/-- Membership in the table `first` (characters that may start a name). -/
def isFirst (c : Char) : Bool :=
  inRanges c.toNat firstTable

/-- Membership in the table `second` (further characters of a name). -/
def isSecond (c : Char) : Bool :=
  inRanges c.toNat secondTable

/-- The function `isName`. -/
def isName : List Char → Bool
  | [] => false
  | c :: rest => isFirst c && rest.all (fun x => isFirst x || isSecond x)

/-- The function `isInCharacterRange`. -/
def isInCharacterRange (r : Char) : Bool :=
  let n := r.toNat
  n == 0x09 || n == 0x0A || n == 0x0D || (0x20 ≤ n && n ≤ 0xD7FF) ||
    (0xE000 ≤ n && n ≤ 0xFFFD) || (0x10000 ≤ n && n ≤ 0x10FFFF)

/-- The method `Decoder.space`: skip blanks. -/
def space : List Char → List Char
  | [] => []
  | c :: rest => if c == ' ' || c == '\r' || c == '\n' || c == '\t' then space rest else c :: rest

/-- The loop of `Decoder.readName` after the first byte: the name bytes read and
the rest of the input, or `none` when the input ends inside the name. -/
def readNameTail : List Char → Option (List Char × List Char)
  | [] => none
  | c :: rest =>
    if c.toNat < 0x80 && !isNameByte c then some ([], c :: rest)
    else match readNameTail rest with
      | none => none
      | some (n, r) => some (c :: n, r)

/-- The method `Decoder.readName`: `some` name bytes with the rest of the input,
`none` (and nothing consumed) when the next byte cannot be in a name, or the
error of an input that ends too early. -/
def readName : List Char → Except GoError (Option (List Char) × List Char)
  | [] => .error unexpectedEOF
  | c :: rest =>
    if c.toNat < 0x80 && !isNameByte c then .ok (none, c :: rest)
    else match readNameTail rest with
      | none => .error unexpectedEOF
      | some (n, r) => .ok (some (c :: n), r)

/-- The method `Decoder.name`: a name that passes `isName`. -/
def name (input : List Char) : Except GoError (Option (List Char) × List Char) :=
  match readName input with
  | .error e => .error e
  | .ok (none, rest) => .ok (none, rest)
  | .ok (some n, rest) =>
    if isName n then .ok (some n, rest)
    else .error (GoError.syntaxError ("invalid XML name: " ++ String.mk n))

/-- The method `Decoder.nsname`: split a name at its colon. A name with more
than one colon is refused; one that starts or ends with the colon is kept whole. -/
def nsname (input : List Char) : Except GoError (Option Name × List Char) :=
  match name input with
  | .error e => .error e
  | .ok (none, rest) => .ok (none, rest)
  | .ok (some s, rest) =>
    if s.count ':' > 1 then .ok (none, rest)
    else
      let sp := s.takeWhile (fun c => c != ':')
      let lo := (s.dropWhile (fun c => c != ':')).drop 1
      if !s.contains ':' || sp.isEmpty || lo.isEmpty then .ok (some ⟨"", String.mk s⟩, rest)
      else .ok (some ⟨String.mk sp, String.mk lo⟩, rest)

/-- The predefined entities (the map `entity`). -/
def entity (n : List Char) : Option Char :=
  if n = "lt".data then some '<'
  else if n = "gt".data then some '>'
  else if n = "amp".data then some '&'
  else if n = "apos".data then some '\''
  else if n = "quot".data then some '"'
  else none

/-- Value of a digit in the given base, if it is one. -/
def digitVal (base : Nat) (c : Char) : Option Nat :=
  if '0' ≤ c ∧ c ≤ '9' then some (c.toNat - '0'.toNat)
  else if base = 16 ∧ 'a' ≤ c ∧ c ≤ 'f' then some (c.toNat - 'a'.toNat + 10)
  else if base = 16 ∧ 'A' ≤ c ∧ c ≤ 'F' then some (c.toNat - 'A'.toNat + 10)
  else none

/-- The text `string(rune(n))` for `n` up to `unicode.MaxRune`: a surrogate
code point becomes U+FFFD. -/
def runeOf (n : Nat) : Char :=
  if 0xD800 ≤ n ∧ n ≤ 0xDFFF then Char.ofNat 0xFFFD else Char.ofNat n

/-- Four or more upper-case hexadecimal digits, as the verb `%U` prints after `U+`. -/
def hexUpper (n : Nat) : String :=
  let ds := (Nat.toDigits 16 n).map Char.toUpper
  String.mk (List.replicate (4 - ds.length) '0' ++ ds)

/-- The check at the end of `Decoder.text`: every character must be in the
character range of XML. -/
def checkRange : List Char → Option GoError
  | [] => none
  | c :: rest =>
    if isInCharacterRange c then checkRange rest
    else some (GoError.syntaxError ("illegal character code U+" ++ hexUpper c.toNat))

/-- The error of `Decoder.text` in strict mode for a reference that does not
resolve; `semi` tells whether the reference ended with its semicolon. -/
def invalidEntity (ent : List Char) (semi : Bool) : GoError :=
  GoError.syntaxError ("invalid character entity &" ++ String.mk ent ++
    (if semi then ";" else " (no semicolon)"))

/-- A character reference of `Decoder.text`, read after `&#` or `&#x`: the
digits in the base, the semicolon, and the character of that number. -/
def charReference (base : Nat) (pre body : List Char) : Except GoError (Char × List Char) :=
  let digits := body.takeWhile (fun c => (digitVal base c).isSome)
  match body.dropWhile (fun c => (digitVal base c).isSome) with
  | [] => .error unexpectedEOF
  | c :: rest =>
    if c != ';' then .error (invalidEntity (pre ++ digits) false)
    else
      let n := digits.foldl (fun acc d => acc * base + (digitVal base d).getD 0) 0
      if !digits.isEmpty && n < 2 ^ 64 && n ≤ 0x10FFFF then .ok (runeOf n, rest)
      else .error (invalidEntity (pre ++ digits) true)

/-- An entity reference of `Decoder.text`, read after `&`: a name, the
semicolon, and the character of the predefined entity of that name. -/
def entityReference (input : List Char) : Except GoError (Char × List Char) :=
  match readName input with
  | .error e => .error e
  | .ok (n, rest) =>
    match rest with
    | [] => .error unexpectedEOF
    | c :: rest1 =>
      if c != ';' then .error (invalidEntity (n.getD []) false)
      else match (if isName (n.getD []) then entity (n.getD []) else none) with
        | some r => .ok (r, rest1)
        | none => .error (invalidEntity (n.getD []) true)

/-- A character reference or entity reference of `Decoder.text`, read after the
`&`: the character it stands for and the rest of the input. In strict mode a
reference that does not resolve is an error. -/
def reference : List Char → Except GoError (Char × List Char)
  | [] => .error unexpectedEOF
  | ['#'] => .error unexpectedEOF
  | '#' :: 'x' :: rest => charReference 16 ['#', 'x'] rest
  | '#' :: b :: rest => charReference 10 ['#'] (b :: rest)
  | input => entityReference input

/-- The loop of `Decoder.text(quote, cdata)`: `b0` and `b1` are the two bytes
read before, `buf` the text gathered so far in reverse. The result is the text
and the rest of the input. The sequence `]]>` ends a CDATA section, is an error
in ordinary text and is allowed inside a quoted attribute value. -/
def textLoop (quote : Option Char) (cdata : Bool) :
    Nat → Option Char → Option Char → List Char → List Char → Except GoError (List Char × List Char)
  | 0, _, _, _, _ => .error outOfFuel
  | _ + 1, _, _, buf, [] =>
    if cdata then .error (GoError.syntaxError "unexpected EOF in CDATA section")
    else .ok (buf.reverse, [])
  | fuel + 1, b0, b1, buf, b :: rest =>
    if quote.isNone && b0 == some ']' && b1 == some ']' && b == '>' then
      if cdata then .ok ((buf.drop 2).reverse, rest)
      else .error (GoError.syntaxError "unescaped ]]> not in CDATA section")
    else if b == '<' && !cdata then
      if quote.isSome then .error (GoError.syntaxError "unescaped < inside quoted string")
      else .ok (buf.reverse, b :: rest)
    else if quote == some b then .ok (buf.reverse, rest)
    else if b == '&' && !cdata then
      match reference rest with
      | .error e => .error e
      | .ok (r, rest1) => textLoop quote cdata fuel none none (r :: buf) rest1
    else if b == '\r' then textLoop quote cdata fuel b1 (some b) ('\n' :: buf) rest
    else if b1 == some '\r' && b == '\n' then textLoop quote cdata fuel b1 (some b) buf rest
    else textLoop quote cdata fuel b1 (some b) (b :: buf) rest

/-- The method `Decoder.text(quote, cdata)`. -/
def text (quote : Option Char) (cdata : Bool) (input : List Char) :
    Except GoError (List Char × List Char) :=
  match textLoop quote cdata (input.length + 1) none none [] input with
  | .error e => .error e
  | .ok (data, rest) =>
    match checkRange data with
    | some e => .error e
    | none => .ok (data, rest)

/-- The state of a `Decoder`: the unread input, the stack of open elements and
the end element still owed for a self-closing tag. -/
structure Decoder where
  input : List Char
  stk : List Name
  needClose : Option Name
deriving DecidableEq, Repr

/-- The comment loop of `rawToken`, after `<!--`: the comment and the rest. -/
def commentLoop : Option Char → Option Char → List Char → List Char →
    Except GoError (List Char × List Char)
  | _, _, _, [] => .error unexpectedEOF
  | b0, b1, buf, b :: rest =>
    if b0 == some '-' && b1 == some '-' then
      if b != '>' then .error (GoError.syntaxError "invalid sequence \"--\" not allowed in comments")
      else .ok ((buf.drop 2).reverse, rest)
    else commentLoop b1 (some b) (b :: buf) rest

/-- The loop of `rawToken` that reads a processing instruction up to `?>`. -/
def procInstLoop : Option Char → List Char → List Char → Except GoError (List Char × List Char)
  | _, _, [] => .error unexpectedEOF
  | b0, buf, b :: rest =>
    if b0 == some '?' && b == '>' then .ok ((buf.drop 1).reverse, rest)
    else procInstLoop (some b) (b :: buf) rest

/-- What follows the first occurrence of `pat` in the text, if there is one
(`strings.Index`). -/
def afterIndex (pat : List Char) : List Char → Option (List Char)
  | [] => if pat.isEmpty then some [] else none
  | c :: rest => if pat.isPrefixOf (c :: rest) then some ((c :: rest).drop pat.length)
    else afterIndex pat rest

/-- The search loop of `procInst`: `param` ends with the `=` sign, `skip`
characters are passed over first. At the first place where `param` occurs the
next character decides: a quote opens the value, which runs up to the same
quote; anything else moves the search behind that character. -/
def procInstScan (param : List Char) : Nat → List Char → List Char
  | _, [] => []
  | skip + 1, _ :: rest => procInstScan param skip rest
  | 0, c :: rest =>
    if param.isPrefixOf (c :: rest) then
      match (c :: rest).drop param.length with
      | [] => []
      | q :: after =>
        if q == '\'' || q == '"' then
          if after.contains q then after.takeWhile (fun x => x != q) else []
        else procInstScan param param.length rest
    else procInstScan param 0 rest

/-- The function `procInst(param, s)`: the quoted value of `param=` in the
content of an XML declaration, or the empty text. -/
def procInst (param : String) (s : List Char) : List Char :=
  procInstScan (param.data ++ ['=']) 0 s

/-- Comparison of a text with `utf-8` that ignores case (`strings.EqualFold`
against an ASCII text; the Kelvin sign and the long s fold to no letter of it). -/
def equalFoldUtf8 (s : List Char) : Bool :=
  s.map Char.toLower == "utf-8".data

/-- The comment loop inside a directive: the input after `-->`. -/
def directiveComment : Option Char → Option Char → List Char → Except GoError (List Char)
  | _, _, [] => .error unexpectedEOF
  | b0, b1, b :: rest =>
    if b0 == some '-' && b1 == some '-' && b == '>' then .ok rest
    else directiveComment b1 (some b) rest

/-- The directive loop of `rawToken`: `pending` is a byte already read that
re-enters at the label `HandleB`, `inquote` the open quote and `depth` the
nesting of angle brackets. -/
def directiveLoop : Nat → Option Char → Option Char → Nat → List Char → List Char →
    Except GoError (List Char × List Char)
  | 0, _, _, _, _, _ => .error outOfFuel
  | fuel + 1, pending, inquote, depth, buf, input =>
    let next : Option (Char × List Char) :=
      match pending with
      | some b => some (b, input)
      | none => match input with
        | [] => none
        | b :: rest => some (b, rest)
    match next with
    | none => .error unexpectedEOF
    | some (b, rest) =>
      if pending.isNone && inquote.isNone && b == '>' && depth == 0 then .ok (buf.reverse, rest)
      else if inquote == some b then directiveLoop fuel none none depth (b :: buf) rest
      else if inquote.isSome then directiveLoop fuel none inquote depth (b :: buf) rest
      else if b == '\'' || b == '"' then directiveLoop fuel none (some b) depth (b :: buf) rest
      else if b == '>' then directiveLoop fuel none none (depth - 1) (b :: buf) rest
      else if b == '<' then
        match rest with
        | [] => .error unexpectedEOF
        | c0 :: r0 =>
          if c0 != '!' then directiveLoop fuel (some c0) none (depth + 1) (b :: buf) r0
          else match r0 with
            | [] => .error unexpectedEOF
            | c1 :: r1 =>
              if c1 != '-' then directiveLoop fuel (some c1) none (depth + 1) ('!' :: b :: buf) r1
              else match r1 with
                | [] => .error unexpectedEOF
                | c2 :: r2 =>
                  if c2 != '-' then
                    directiveLoop fuel (some c2) none (depth + 1) ('-' :: '!' :: b :: buf) r2
                  else match directiveComment none none r2 with
                    | .error e => .error e
                    | .ok r3 => directiveLoop fuel none none depth (' ' :: buf) r3
      else directiveLoop fuel none none depth (b :: buf) rest

/-- The attribute loop of `rawToken`: the attributes, whether the tag closes
itself, and the rest of the input. -/
def attrLoop : Nat → List Attr → List Char → Except GoError (List Attr × Bool × List Char)
  | 0, _, _ => .error outOfFuel
  | fuel + 1, attr, input =>
    match space input with
    | [] => .error unexpectedEOF
    | '/' :: rest =>
      match rest with
      | [] => .error unexpectedEOF
      | b :: rest1 =>
        if b != '>' then .error (GoError.syntaxError "expected /> in element")
        else .ok (attr.reverse, true, rest1)
    | '>' :: rest => .ok (attr.reverse, false, rest)
    | b :: rest =>
      match nsname (b :: rest) with
      | .error e => .error e
      | .ok (none, _) => .error (GoError.syntaxError "expected attribute name in element")
      | .ok (some nm, rest1) =>
        match space rest1 with
        | [] => .error unexpectedEOF
        | e :: rest2 =>
          if e != '=' then .error (GoError.syntaxError "attribute name without = in element")
          else match space rest2 with
            | [] => .error unexpectedEOF
            | q :: rest3 =>
              if q == '"' || q == '\'' then
                match text (some q) false rest3 with
                | .error err => .error err
                | .ok (data, rest4) => attrLoop fuel (⟨nm, String.mk data⟩ :: attr) rest4
              else .error (GoError.syntaxError "unquoted or missing attribute value in element")

/-- The method `Decoder.rawToken`; the error `io.EOF` marks the end of the input. -/
def rawToken (d : Decoder) : Except GoError (Token × Decoder) :=
  match d.needClose with
  | some nm => .ok (Token.EndElement nm, { d with needClose := none })
  | none =>
    match d.input with
    | [] => .error GoError.eof
    | '<' :: rest =>
      match rest with
      | [] => .error unexpectedEOF
      | '/' :: rest1 =>
        match nsname rest1 with
        | .error e => .error e
        | .ok (none, _) => .error (GoError.syntaxError "expected element name after </")
        | .ok (some nm, rest2) =>
          match space rest2 with
          | [] => .error unexpectedEOF
          | b :: rest3 =>
            if b != '>' then
              .error (GoError.syntaxError ("invalid characters between </" ++ nm.Local ++ " and >"))
            else .ok (Token.EndElement nm, { d with input := rest3 })
      | '?' :: rest1 =>
        match name rest1 with
        | .error e => .error e
        | .ok (none, _) => .error (GoError.syntaxError "expected target name after <?")
        | .ok (some target, rest2) =>
          match procInstLoop none [] (space rest2) with
          | .error e => .error e
          | .ok (data, rest3) =>
            let ver := procInst "version" data
            let enc := procInst "encoding" data
            if target = "xml".data && !ver.isEmpty && ver != "1.0".data then
              .error (GoError.unsupportedVersion (String.mk ver))
            else if target = "xml".data && !enc.isEmpty && !equalFoldUtf8 enc then
              .error (GoError.unsupportedEncoding (String.mk enc))
            else .ok (Token.ProcInst (String.mk target) data, { d with input := rest3 })
      | '!' :: rest1 =>
        match rest1 with
        | [] => .error unexpectedEOF
        | '-' :: rest2 =>
          match rest2 with
          | [] => .error unexpectedEOF
          | b :: rest3 =>
            if b != '-' then .error (GoError.syntaxError "invalid sequence <!- not part of <!--")
            else match commentLoop none none [] rest3 with
              | .error e => .error e
              | .ok (data, rest4) => .ok (Token.Comment data, { d with input := rest4 })
        | '[' :: rest2 =>
          if "CDATA[".data.isPrefixOf rest2 then
            match text none true (rest2.drop 6) with
            | .error e => .error e
            | .ok (data, rest3) => .ok (Token.CharData data, { d with input := rest3 })
          else if rest2.length < 6 && rest2.isPrefixOf "CDATA[".data then .error unexpectedEOF
          else .error (GoError.syntaxError "invalid <![ sequence")
        | b :: rest2 =>
          match directiveLoop (2 * rest2.length + 2) none none 0 [b] rest2 with
          | .error e => .error e
          | .ok (data, rest3) => .ok (Token.Directive data, { d with input := rest3 })
      | b :: rest1 =>
        match nsname (b :: rest1) with
        | .error e => .error e
        | .ok (none, _) => .error (GoError.syntaxError "expected element name after <")
        | .ok (some nm, rest2) =>
          match attrLoop (rest2.length + 1) [] rest2 with
          | .error e => .error e
          | .ok (attr, empty, rest3) =>
            .ok (Token.StartElement nm attr,
              { d with input := rest3, needClose := if empty then some nm else none })
    | b :: rest =>
      match text none false (b :: rest) with
      | .error e => .error e
      | .ok (data, rest1) => .ok (Token.CharData data, { d with input := rest1 })

/-- The method `Decoder.Token` in strict mode: `rawToken` with the bookkeeping
of open elements (`pushElement`, `popElement`). -/
def Decoder.Token (d : Decoder) : Except GoError (Sdk.Token × Decoder) :=
  match rawToken d with
  | .error e =>
    if e = GoError.eof ∧ d.stk ≠ [] then .error unexpectedEOF else .error e
  | .ok (Token.StartElement nm attr, d1) =>
    .ok (Token.StartElement nm attr, { d1 with stk := nm :: d1.stk })
  | .ok (Token.EndElement nm, d1) =>
    match d1.stk with
    | [] => .error (GoError.syntaxError ("unexpected end element </" ++ nm.Local ++ ">"))
    | s :: stk =>
      if s.Local ≠ nm.Local then
        .error (GoError.syntaxError ("element <" ++ s.Local ++ "> closed by </" ++ nm.Local ++ ">"))
      else if s.Space ≠ nm.Space then
        .error (GoError.syntaxError ("element <" ++ s.Local ++ "> in space " ++ s.Space ++
          " closed by </" ++ nm.Local ++ "> in space " ++
          (if nm.Space = "" then "\"\"" else nm.Space)))
      else .ok (Token.EndElement nm, { d1 with stk := stk })
  | .ok (t, d1) => .ok (t, d1)

/-- The method `Decoder.Skip`: read tokens up to the end of the element that
is open, `depth` counting the elements opened on the way. -/
def Decoder.Skip : Nat → Nat → Decoder → Except GoError Decoder
  | 0, _, _ => .error outOfFuel
  | fuel + 1, depth, d =>
    match Decoder.Token d with
    | .error e => .error e
    | .ok (Token.StartElement _ _, d1) => Decoder.Skip fuel (depth + 1) d1
    | .ok (Token.EndElement _, d1) => if depth = 0 then .ok d1 else Decoder.Skip fuel (depth - 1) d1
    | .ok (_, d1) => Decoder.Skip fuel depth d1

/-- The path of a struct field in the XML, as `getTypeInfo` derives it from the
field and its tag: the Go field, the parent elements and the element name. -/
structure FieldInfo where
  field : String
  parents : List String
  name : String
deriving DecidableEq, Repr

/-- The function `strings.Split` for a separator of one character. -/
def splitOn (sep : Char) : List Char → List (List Char)
  | [] => [[]]
  | c :: rest =>
    match splitOn sep rest with
    | [] => [[]]
    | part :: parts => if c == sep then [] :: part :: parts else (c :: part) :: parts

/-- The function `structFieldInfo` for a tag without options and without a name
space: no entry for the tag `-`, the field name for an empty tag, otherwise the
path `a>b>c`, whose first element defaults to the field name. -/
def fieldInfo (field tag : String) : Option FieldInfo :=
  if tag = "-" then none
  else if tag = "" then some ⟨field, [], field⟩
  else
    let parts := (splitOn '>' tag.data).map String.mk
    let parts := match parts with
      | [] => []
      | p :: ps => (if p = "" then field else p) :: ps
    some ⟨field, parts.dropLast, parts.getLastD ""⟩

/-- A value that `xml.Unmarshal` fills in, as reflection presents it: a string,
an `int`, or a struct given by its fields with their paths. -/
inductive XmlValue where
  | string (s : String)
  | int (n : Int)
  | struct (fields : List (FieldInfo × XmlValue))

/-- The fields of a struct value. -/
abbrev Fields := List (FieldInfo × XmlValue)

/-- The fields of a struct with the tags of their declaration; a field tagged
`-` is left out, as `getTypeInfo` does. -/
def structFields : List (String × String × XmlValue) → Fields
  | [] => []
  | (field, tag, v) :: rest =>
    match fieldInfo field tag with
    | none => structFields rest
    | some finfo => (finfo, v) :: structFields rest

/-- The value of the Go field `field` in a list of fields. -/
def Fields.lookup (field : String) : Fields → Option XmlValue
  | [] => none
  | (finfo, v) :: rest => if finfo.field = field then some v else Fields.lookup field rest

/-- Outcome of the search of `unmarshalPath` among the fields. -/
inductive PathMatch where
  /-- The element is the one of field number `i`. -/
  | perfect (i : Nat)
  /-- The element is a parent on the path of some field; the path so far. -/
  | descend (parents : List String)
  /-- No field has business with the element. -/
  | noMatch
deriving DecidableEq, Repr

/-- The field loop of `Decoder.unmarshalPath`, from field number `i` on. -/
def matchField (parents : List String) (loc : String) : Nat → Fields → PathMatch
  | _, [] => PathMatch.noMatch
  | i, (finfo, _) :: rest =>
    if finfo.parents.length < parents.length then matchField parents loc (i + 1) rest
    else if !parents.isPrefixOf finfo.parents then matchField parents loc (i + 1) rest
    else if finfo.parents.length = parents.length ∧ finfo.name = loc then PathMatch.perfect i
    else if finfo.parents.length > parents.length ∧ finfo.parents.get? parents.length = some loc then
      PathMatch.descend (finfo.parents.take (parents.length + 1))
    else matchField parents loc (i + 1) rest

/-- Whether `unicode.IsSpace` holds, the test of `strings.TrimSpace`. -/
def isSpace (c : Char) : Bool :=
  let n := c.toNat
  (0x09 ≤ n && n ≤ 0x0D) || n == 0x20 || n == 0x85 || n == 0xA0 || n == 0x1680 ||
    (0x2000 ≤ n && n ≤ 0x200A) || n == 0x2028 || n == 0x2029 || n == 0x202F ||
    n == 0x205F || n == 0x3000

/-- The function `strings.TrimSpace`. -/
def trimSpace (s : List Char) : List Char :=
  ((s.dropWhile isSpace).reverse.dropWhile isSpace).reverse

/-- The digits of `strconv.ParseUint(s, 10, 64)` as a number, if all are digits. -/
def parseDigits : Nat → List Char → Option Nat
  | acc, [] => some acc
  | acc, c :: rest =>
    if '0' ≤ c ∧ c ≤ '9' then parseDigits (acc * 10 + (c.toNat - '0'.toNat)) rest else none

/-- The call `strconv.ParseInt(s, 10, 64)`. -/
def parseInt (s : List Char) : Except GoError Int :=
  let syntaxErr := GoError.numError (String.mk s) "invalid syntax"
  let rangeErr := GoError.numError (String.mk s) "value out of range"
  let neg := s.head? == some '-'
  let ds := if s.head? == some '-' || s.head? == some '+' then s.drop 1 else s
  if ds.isEmpty then .error syntaxErr
  else match parseDigits 0 ds with
    | none => .error syntaxErr
    | some n =>
      if !neg && n ≥ 2 ^ 63 then .error rangeErr
      else if neg && n > 2 ^ 63 then .error rangeErr
      else .ok (if neg then - (n : Int) else (n : Int))

/-- The token loop of `Decoder.unmarshal` for a value that is not a struct:
gather the character data of the element and skip its sub-elements. -/
def dataLoop : Nat → List Char → Decoder → Except GoError (List Char × Decoder)
  | 0, _, _ => .error outOfFuel
  | fuel + 1, data, d =>
    match Decoder.Token d with
    | .error e => .error e
    | .ok (Token.StartElement _ _, d1) =>
      match Decoder.Skip fuel 0 d1 with
      | .error e => .error e
      | .ok d2 => dataLoop fuel data d2
    | .ok (Token.EndElement _, d1) => .ok (data, d1)
    | .ok (Token.CharData t, d1) => dataLoop fuel (data ++ t) d1
    | .ok (_, d1) => dataLoop fuel data d1

/-- Replace entry `i` of the fields by the value `v`. -/
def Fields.assign (fields : Fields) (i : Nat) (v : XmlValue) : Fields :=
  match fields.get? i with
  | none => fields
  | some (finfo, _) => List.set fields i (finfo, v)

mutual

/-- The method `Decoder.unmarshal(val, start)` once the start element is read:
the value as filled in, the decoder and the error. -/
def unmarshal : Nat → Nat → XmlValue → Decoder → XmlValue × Decoder × Option GoError
  | 0, _, v, d => (v, d, some outOfFuel)
  | fuel + 1, depth, v, d =>
    if depth ≥ maxUnmarshalDepth then (v, d, some errUnmarshalDepth)
    else match v with
      | XmlValue.struct fields =>
        match structLoop fuel depth fields d with
        | (fs, d1, e) => (XmlValue.struct fs, d1, e)
      | XmlValue.string s =>
        match dataLoop fuel [] d with
        | .error e => (XmlValue.string s, d, some e)
        | .ok (data, d1) => (XmlValue.string (String.mk data), d1, none)
      | XmlValue.int n =>
        match dataLoop fuel [] d with
        | .error e => (XmlValue.int n, d, some e)
        | .ok (data, d1) =>
          if data.isEmpty then (XmlValue.int 0, d1, none)
          else match parseInt (trimSpace data) with
            | .error e => (XmlValue.int n, d1, some e)
            | .ok m => (XmlValue.int m, d1, none)

/-- The token loop of `Decoder.unmarshal` for a struct: every sub-element goes
through `unmarshalPath` and is skipped when no field takes it. -/
def structLoop : Nat → Nat → Fields → Decoder → Fields × Decoder × Option GoError
  | 0, _, fields, d => (fields, d, some outOfFuel)
  | fuel + 1, depth, fields, d =>
    match Decoder.Token d with
    | .error e => (fields, d, some e)
    | .ok (Token.StartElement nm _, d1) =>
      match unmarshalPath fuel depth fields [] nm.Local d1 with
      | (fs, d2, _, some e) => (fs, d2, some e)
      | (fs, d2, true, none) => structLoop fuel depth fs d2
      | (fs, d2, false, none) =>
        match Decoder.Skip fuel 0 d2 with
        | .error e => (fs, d2, some e)
        | .ok d3 => structLoop fuel depth fs d3
    | .ok (Token.EndElement _, d1) => (fields, d1, none)
    | .ok (_, d1) => structLoop fuel depth fields d1

/-- The method `Decoder.unmarshalPath`: the fields as filled in, the decoder,
whether the element was consumed, and the error. -/
def unmarshalPath : Nat → Nat → Fields → List String → String → Decoder →
    Fields × Decoder × Bool × Option GoError
  | 0, _, fields, _, _, d => (fields, d, true, some outOfFuel)
  | fuel + 1, depth, fields, parents, loc, d =>
    match matchField parents loc 0 fields with
    | PathMatch.noMatch => (fields, d, false, none)
    | PathMatch.perfect i =>
      match fields.get? i with
      | none => (fields, d, false, none)
      | some (_, v) =>
        match unmarshal fuel (depth + 1) v d with
        | (v1, d1, e) => (Fields.assign fields i v1, d1, true, e)
    | PathMatch.descend ps =>
      match pathLoop fuel depth fields ps d with
      | (fs, d1, e) => (fs, d1, true, e)

/-- The token loop at the end of `Decoder.unmarshalPath`, inside a parent
element of some field. -/
def pathLoop : Nat → Nat → Fields → List String → Decoder →
    Fields × Decoder × Option GoError
  | 0, _, fields, _, d => (fields, d, some outOfFuel)
  | fuel + 1, depth, fields, parents, d =>
    match Decoder.Token d with
    | .error e => (fields, d, some e)
    | .ok (Token.StartElement nm _, d1) =>
      match unmarshalPath fuel depth fields parents nm.Local d1 with
      | (fs, d2, _, some e) => (fs, d2, some e)
      | (fs, d2, true, none) => pathLoop fuel depth fs parents d2
      | (fs, d2, false, none) =>
        match Decoder.Skip fuel 0 d2 with
        | .error e => (fs, d2, some e)
        | .ok d3 => pathLoop fuel depth fs parents d3
    | .ok (Token.EndElement _, d1) => (fields, d1, none)
    | .ok (_, d1) => pathLoop fuel depth fields parents d1

end

/-- The first loop of `Decoder.unmarshal`: read tokens up to the first start
element. -/
def findStart : Nat → Decoder → Except GoError Decoder
  | 0, _ => .error outOfFuel
  | fuel + 1, d =>
    match Decoder.Token d with
    | .error e => .error e
    | .ok (Token.StartElement _ _, d1) => .ok d1
    | .ok (_, d1) => findStart fuel d1

/-- The call `xml.Unmarshal(b, &v)`: the value as the decoder leaves it and the
error returned. Every token takes at least one character of the body or is the
second half of a self-closing tag, which bounds the number of steps: the bound
given here is never reached (`xmlUnmarshal_fuel`). -/
def xmlUnmarshal (b : String) (v : XmlValue) : XmlValue × Option GoError :=
  let fuel := 8 * b.data.length + 16
  match findStart fuel ⟨b.data, [], none⟩ with
  | .error e => (v, some e)
  | .ok d =>
    match unmarshal fuel 0 v d with
    | (v1, _, e) => (v1, e)

/-! ## `ReadAndParse` -/

/-- The XML library as `ReadAndParse` uses it: `xml.Unmarshal(b, &v)` maps the
body and the value before the call to the value after the call and the error. -/
abbrev Unmarshaler := String → XmlValue → XmlValue × Option GoError

/-- The struct `Fault` as reflection shows it to the decoder, with the tags of
its declaration (sdk.go, lines 34-38). -/
def Fault.reflect (f : Fault) : XmlValue :=
  XmlValue.struct (structFields [
    ("StatusCode", "-", XmlValue.int f.StatusCode),
    ("Code", ">Value", XmlValue.string f.Code),
    ("Subcode", "Code>Subcode>Value", XmlValue.string f.Subcode),
    ("Reason", ">Text", XmlValue.string f.Reason)])

/-- The struct `Envelope` as reflection shows it to the decoder (sdk.go, line 60). -/
def Envelope.reflect (e : Envelope) : XmlValue :=
  XmlValue.struct (structFields [("Fault", "Body>Fault", e.Fault.reflect)])

/-- The string held by an optional value, or `old` when it holds none. -/
def stringOr (old : String) : Option XmlValue → String
  | some (XmlValue.string s) => s
  | _ => old

/-- The `Fault` after the decoder has written `v` through reflection. The field
`StatusCode` is tagged `-`: the decoder has no access to it. -/
def Fault.store (f : Fault) : XmlValue → Fault
  | XmlValue.struct fs =>
    { f with
      Code := stringOr f.Code (Fields.lookup "Code" fs)
      Subcode := stringOr f.Subcode (Fields.lookup "Subcode" fs)
      Reason := stringOr f.Reason (Fields.lookup "Reason" fs) }
  | _ => f

/-- The `Envelope` after the decoder has written `v` through reflection. -/
def Envelope.store (e : Envelope) : XmlValue → Envelope
  | XmlValue.struct fs =>
    match Fields.lookup "Fault" fs with
    | some v => { e with Fault := e.Fault.store v }
    | none => e
  | _ => e

/-- The body of an `http.Response` as a stream: the bytes it delivers and the
error, if any, with which reading it stops before the end. -/
structure Body where
  data : String
  err : Option GoError

/-- The fields of `http.Response` that `ReadAndParse` uses. -/
structure Response where
  Status : String
  StatusCode : Int
  Body : Body

/-- The call `ioutil.ReadAll(r)`: the bytes read and the error. -/
def ReadAll (r : Body) : String × Option GoError :=
  (r.data, r.err)

/-- The effects of `ReadAndParse` on the world around it, in the order of
execution. -/
inductive Effect where
  /-- The debug event sent to `Logger` with the fields `msg`, `status`, `action`. -/
  | log (msg : String) (status : Int) (action : String)
  /-- The call `ioutil.ReadAll(httpReply.Body)`. -/
  | read
  /-- The call `httpReply.Body.Close()`. -/
  | close
  /-- The call `xml.Unmarshal(b, &envFault)`. -/
  | unmarshalFault
  /-- The call `xml.Unmarshal(b, reply)`. -/
  | unmarshalReply
deriving DecidableEq, Repr

/-- What a call of `ReadAndParse` leaves behind: the error returned (`none` for
`nil`), the destination `reply` after the call, and the effects in order. -/
structure Outcome where
  err : Option GoError
  reply : XmlValue
  trace : List Effect

/-- The function `ReadAndParse` (sdk.go, lines 45-73). The parameter `ctx` is
not used by the source. -/
def ReadAndParse (xml : Unmarshaler) (httpReply : Response) (reply : XmlValue) (tag : String) :
    Outcome :=
  let t0 := [Effect.log httpReply.Status httpReply.StatusCode tag, Effect.read]
  match ReadAll httpReply.Body with
  | (_, some err) => ⟨Annotate (some err) "read", reply, t0⟩
  | (b, none) =>
    let t1 := t0 ++ [Effect.close, Effect.unmarshalFault]
    let envFault : Envelope := ⟨⟨httpReply.StatusCode, "", "", ""⟩⟩
    match xml b envFault.reflect with
    | (v, err) =>
      let envFault := envFault.store v
      if err ≠ none then ⟨Annotate err "decode fault info", reply, t1⟩
      else if envFault.Fault.StatusCode ≠ 200 ∨ envFault.Fault.Code.utf8ByteSize > 0 then
        ⟨some (GoError.fault envFault.Fault), reply, t1⟩
      else
        match xml b reply with
        | (reply1, err1) => ⟨Annotate err1 "decode", reply1, t1 ++ [Effect.unmarshalReply]⟩

/-! ## The responses of the scenarios -/

/-- A destination `struct { Result int }` whose field is bound to the element
`Body>Result`, holding `n`. -/
def resultStruct (n : Int) : XmlValue :=
  XmlValue.struct (structFields [("Result", "Body>Result", XmlValue.int n)])

/-- A destination `struct { Result int }` without a tag, holding `n`: the field
is bound to an element `Result` directly under the root element. -/
def untaggedResultStruct (n : Int) : XmlValue :=
  XmlValue.struct (structFields [("Result", "", XmlValue.int n)])

/-- A destination `struct { Body struct { Result int } }` without tags, holding
`n`: the field `Result` is reached through the element `Body`. -/
def nestedResultStruct (n : Int) : XmlValue :=
  XmlValue.struct (structFields [("Body", "",
    XmlValue.struct (structFields [("Result", "", XmlValue.int n)]))])

/-- The field `Result` of a destination, if it has one that is an `int`. -/
def getResult : XmlValue → Option Int
  | XmlValue.struct fs =>
    match Fields.lookup "Result" fs with
    | some (XmlValue.int n) => some n
    | _ => none
  | _ => none

/-- The field `Result` inside the field `Body` of a destination. -/
def getNestedResult : XmlValue → Option Int
  | XmlValue.struct fs =>
    match Fields.lookup "Body" fs with
    | some v => getResult v
    | none => none
  | _ => none

/-- A response with the given status code and body, whose body reads to the end. -/
def response (status : Int) (body : String) : Response :=
  ⟨"", status, ⟨body, none⟩⟩

/-- Body of scenario A. -/
def bodyA : String := "<Envelope><Body><Result>42</Result></Body></Envelope>"

/-- Body of scenario B. -/
def bodyB : String :=
  "<Envelope><Body><Fault><Code><Value>s:Sender</Value><Subcode><Value>ter:NotAuthorized</Value></Subcode></Code><Reason><Text xml:lang=\"en\">Invalid username or password!</Text></Reason></Fault></Body></Envelope>"

/-- The value of `envFault` before the fault parse: the zero value with
`StatusCode` set to the status of the response (sdk.go, lines 62-63). -/
def initialEnvelope (httpReply : Response) : Envelope :=
  ⟨⟨httpReply.StatusCode, "", "", ""⟩⟩

/-- The value of `envFault` after `xml.Unmarshal(b, &envFault)` (sdk.go, line 64). -/
def decodedEnvelope (xml : Unmarshaler) (httpReply : Response) : Envelope :=
  (initialEnvelope httpReply).store
    (xml httpReply.Body.data (initialEnvelope httpReply).reflect).1

/-- The error of `xml.Unmarshal(b, &envFault)` (sdk.go, line 64). -/
def faultParseError (xml : Unmarshaler) (httpReply : Response) : Option GoError :=
  (xml httpReply.Body.data (initialEnvelope httpReply).reflect).2

/-! ## Fault envelopes built from three texts -/

/-- A character of plain text: in the character range of XML and none of `<`,
`&`, `>` and carriage return, which the decoder treats apart. -/
def plainChar (c : Char) : Bool :=
  isInCharacterRange c && c != '<' && c != '&' && c != '>' && c != '\r'

/-- A text made of plain characters. -/
def plainText (s : String) : Bool :=
  s.data.all plainChar

/-- A start tag without attributes, as characters. -/
def openTag (t : String) : List Char :=
  '<' :: (t.data ++ ['>'])

/-- An end tag, as characters. -/
def closeTag (t : String) : List Char :=
  '<' :: '/' :: (t.data ++ ['>'])

/-- The fields of `Fault` that the decoder sees, holding the given values. -/
def faultFields (a b c : XmlValue) : Fields :=
  [(⟨"Code", ["Code"], "Value"⟩, a), (⟨"Subcode", ["Code", "Subcode"], "Value"⟩, b),
    (⟨"Reason", ["Reason"], "Text"⟩, c)]

/-- The content of a `Fault` element with the three texts, as characters. -/
def faultContent (code sub reason rest : List Char) : List Char :=
  openTag "Code" ++ (openTag "Value" ++ (code ++ (closeTag "Value" ++ (openTag "Subcode" ++
    (openTag "Value" ++ (sub ++ (closeTag "Value" ++ (closeTag "Subcode" ++
    (closeTag "Code" ++ (openTag "Reason" ++ (openTag "Text" ++ (reason ++
    (closeTag "Text" ++ (closeTag "Reason" ++ (closeTag "Fault" ++ rest)))))))))))))))

/-- The field of `Envelope` that the decoder sees, holding the given value. -/
def envelopeFields (v : XmlValue) : Fields :=
  [(⟨"Fault", ["Body"], "Fault"⟩, v)]

/-- The characters of a fault envelope with the three texts. -/
def faultBodyChars (code sub reason : List Char) : List Char :=
  openTag "Envelope" ++ (openTag "Body" ++ (openTag "Fault" ++
    faultContent code sub reason (closeTag "Body" ++ closeTag "Envelope")))

/-- The fault envelope of the wire format for three texts: the elements
`Envelope`, `Body` and `Fault`, then `Code` with `Value` (the text `code`) and
`Subcode` with `Value` (the text `subcode`), then `Reason` with `Text` (the text
`reason`), without attributes and without blanks between the tags. -/
def faultBody (code subcode reason : String) : String :=
  String.mk (faultBodyChars code.data subcode.data reason.data)

/-! ## Measures for the step bounds of the decoder model -/

/-- A result of a reader of the input that is no `outOfFuel` and leaves a rest
no longer than the input `l`. -/
def Shrinks {α : Type} (l : List Char) : Except GoError (α × List Char) → Prop
  | .error e => e ≠ outOfFuel
  | .ok (_, rest) => rest.length ≤ l.length

/-- What a reader of a name returns: an error other than `outOfFuel`, no name
and a rest no longer than the input `l`, or a name and a shorter rest. -/
def NameResult {α : Type} (l : List Char) : Except GoError (Option α × List Char) → Prop
  | .error e => e ≠ outOfFuel
  | .ok (none, rest) => rest.length ≤ l.length
  | .ok (some _, rest) => rest.length < l.length

/-- A result of a reader of the input that is no `outOfFuel` and leaves a rest
strictly shorter than the input `l`. -/
def ShrinksStrict {α : Type} (l : List Char) : Except GoError (α × List Char) → Prop
  | .error e => e ≠ outOfFuel
  | .ok (_, rest) => rest.length < l.length

/-- A result of the attribute loop that is no `outOfFuel` and leaves a rest no
longer than the input `l`. -/
def AttrShrinks (l : List Char) : Except GoError (List Attr × Bool × List Char) → Prop
  | .error e => e ≠ outOfFuel
  | .ok (_, _, rest) => rest.length ≤ l.length

/-- The measure of the decoder state that every token lowers: twice the unread
input, plus one for an end element still owed. -/
def Decoder.size (d : Decoder) : Nat :=
  2 * d.input.length + (if d.needClose.isSome then 1 else 0)

/-- A token read without `outOfFuel` that lowers the measure of the decoder. -/
def TokenResult (d : Decoder) : Except GoError (Token × Decoder) → Prop
  | .error e => e ≠ outOfFuel
  | .ok (_, d1) => d1.size < d.size

/-- A result that is no `outOfFuel` and a decoder whose measure has not grown. -/
def DecShrinks (d : Decoder) : Except GoError Decoder → Prop
  | .error e => e ≠ outOfFuel
  | .ok d1 => d1.size ≤ d.size

/-- A result with data that is no `outOfFuel` and a decoder whose measure has
not grown. -/
def DataShrinks (d : Decoder) : Except GoError (List Char × Decoder) → Prop
  | .error e => e ≠ outOfFuel
  | .ok (_, d1) => d1.size ≤ d.size

/-- A result of a loop of `unmarshal` that is no `outOfFuel` and, when it is no
error, a decoder whose measure has not grown. -/
def LoopOk {α : Type} (d : Decoder) : α × Decoder × Option GoError → Prop
  | (_, _, some e) => e ≠ outOfFuel
  | (_, d1, none) => d1.size ≤ d.size

/-- The same for a result of `unmarshalPath`. -/
def PathOk (d : Decoder) : Fields × Decoder × Bool × Option GoError → Prop
  | (_, _, _, some e) => e ≠ outOfFuel
  | (_, d1, _, none) => d1.size ≤ d.size

/-- The bounds of the four loops of `unmarshal`, for one value of the fuel. -/
def UnmarshalOk (fuel : Nat) : Prop :=
  (∀ (depth : Nat) (v : XmlValue) (d : Decoder), 3 * d.size + 1 < fuel →
      LoopOk d (unmarshal fuel depth v d)) ∧
    (∀ (depth : Nat) (fs : Fields) (d : Decoder), 3 * d.size < fuel →
      LoopOk d (structLoop fuel depth fs d)) ∧
    (∀ (depth : Nat) (fs : Fields) (ps : List String) (loc : String) (d : Decoder),
      3 * d.size + 2 < fuel → PathOk d (unmarshalPath fuel depth fs ps loc d)) ∧
    (∀ (depth : Nat) (fs : Fields) (ps : List String) (d : Decoder), 3 * d.size < fuel →
      LoopOk d (pathLoop fuel depth fs ps d))

/-! ## Auxiliary facts -/

theorem utf8ByteSize_pos_iff (s : String) : s.utf8ByteSize > 0 ↔ s ≠ "" := by
  rcases s with ⟨cs⟩
  cases cs with
  | nil => simp [String.utf8ByteSize, String.utf8ByteSize.go]
  | cons c cs =>
    have hc : 0 < c.utf8Size := Char.utf8Size_pos c
    have hne : (⟨c :: cs⟩ : String) ≠ "" := by
      intro h
      have := congrArg String.data h
      simp at this
    simp only [String.utf8ByteSize, String.utf8ByteSize.go, gt_iff_lt, ne_eq, hne,
      not_false_eq_true, iff_true]
    omega

theorem faultStore_StatusCode (f : Fault) (v : XmlValue) :
    (f.store v).StatusCode = f.StatusCode := by
  cases v <;> rfl

theorem envelopeStore_StatusCode (e : Envelope) (v : XmlValue) :
    (e.store v).Fault.StatusCode = e.Fault.StatusCode := by
  cases v with
  | string s => rfl
  | int n => rfl
  | struct fs =>
    simp only [Envelope.store]
    cases Fields.lookup "Fault" fs with
    | none => rfl
    | some w => exact faultStore_StatusCode _ _

theorem decodedEnvelope_StatusCode (xml : Unmarshaler) (httpReply : Response) :
    (decodedEnvelope xml httpReply).Fault.StatusCode = httpReply.StatusCode :=
  envelopeStore_StatusCode _ _

theorem faultStore_fields (f g : Fault) (v : XmlValue) (hc : f.Code = g.Code)
    (hs : f.Subcode = g.Subcode) (hr : f.Reason = g.Reason) :
    (f.store v).Code = (g.store v).Code ∧ (f.store v).Subcode = (g.store v).Subcode ∧
      (f.store v).Reason = (g.store v).Reason := by
  cases v with
  | string s => exact ⟨hc, hs, hr⟩
  | int n => exact ⟨hc, hs, hr⟩
  | struct fs => simp only [Fault.store, hc, hs, hr, and_self]

theorem envelopeStore_fields (e g : Envelope) (v : XmlValue) (hc : e.Fault.Code = g.Fault.Code)
    (hs : e.Fault.Subcode = g.Fault.Subcode) (hr : e.Fault.Reason = g.Fault.Reason) :
    (e.store v).Fault.Code = (g.store v).Fault.Code ∧
      (e.store v).Fault.Subcode = (g.store v).Fault.Subcode ∧
      (e.store v).Fault.Reason = (g.store v).Fault.Reason := by
  cases v with
  | string s => exact ⟨hc, hs, hr⟩
  | int n => exact ⟨hc, hs, hr⟩
  | struct fs =>
    simp only [Envelope.store]
    cases Fields.lookup "Fault" fs with
    | none => exact ⟨hc, hs, hr⟩
    | some w => exact faultStore_fields _ _ w hc hs hr

/-- The texts that the fault parse extracts depend on the body only: the status
code of the response has no part in them. -/
theorem decodedEnvelope_fields (xml : Unmarshaler) (status : Int) (body : String) :
    (decodedEnvelope xml (response status body)).Fault =
      { (decodedEnvelope xml (response 0 body)).Fault with StatusCode := status } := by
  have hrefl : (initialEnvelope (response status body)).reflect =
      (initialEnvelope (response 0 body)).reflect := rfl
  have hst := decodedEnvelope_StatusCode xml (response status body)
  have h := envelopeStore_fields (initialEnvelope (response status body))
    (initialEnvelope (response 0 body))
    (xml body (initialEnvelope (response 0 body)).reflect).1 rfl rfl rfl
  have hd : decodedEnvelope xml (response status body) =
      (initialEnvelope (response status body)).store
        (xml body (initialEnvelope (response 0 body)).reflect).1 := by
    simp only [decodedEnvelope, hrefl]
    rfl
  have hd0 : decodedEnvelope xml (response 0 body) =
      (initialEnvelope (response 0 body)).store
        (xml body (initialEnvelope (response 0 body)).reflect).1 := rfl
  rw [← hd, ← hd0] at h
  obtain ⟨h1, h2, h3⟩ := h
  cases hf : (decodedEnvelope xml (response status body)).Fault with
  | mk sc c sub r =>
    rw [hf] at h1 h2 h3 hst
    simp only at h1 h2 h3 hst
    simp only [h1, h2, h3]
    rw [hst]
    rfl

/-- Two responses with the same body give the same extracted texts, whatever
their status codes. -/
theorem decodedEnvelope_texts (xml : Unmarshaler) (r1 r2 : Response)
    (hbody : r1.Body.data = r2.Body.data) :
    (decodedEnvelope xml r1).Fault.Code = (decodedEnvelope xml r2).Fault.Code ∧
      (decodedEnvelope xml r1).Fault.Subcode = (decodedEnvelope xml r2).Fault.Subcode ∧
      (decodedEnvelope xml r1).Fault.Reason = (decodedEnvelope xml r2).Fault.Reason := by
  have hrefl : (initialEnvelope r1).reflect = (initialEnvelope r2).reflect := rfl
  have h := envelopeStore_fields (initialEnvelope r1) (initialEnvelope r2)
    (xml r2.Body.data (initialEnvelope r2).reflect).1 rfl rfl rfl
  have hd : decodedEnvelope xml r1 =
      (initialEnvelope r1).store (xml r2.Body.data (initialEnvelope r2).reflect).1 := by
    simp only [decodedEnvelope, hrefl, hbody]
  rw [hd]
  exact h

/-- `ReadAndParse` when reading the body fails. -/
theorem ReadAndParse_readError (xml : Unmarshaler) (httpReply : Response) (reply : XmlValue)
    (tag : String) (e : GoError) (hread : httpReply.Body.err = some e) :
    ReadAndParse xml httpReply reply tag =
      ⟨some (GoError.annotated e "read"), reply,
        [Effect.log httpReply.Status httpReply.StatusCode tag, Effect.read]⟩ := by
  simp [ReadAndParse, ReadAll, hread, Annotate]

/-- `ReadAndParse` when the body is read and the fault parse fails. -/
theorem ReadAndParse_faultParseError (xml : Unmarshaler) (httpReply : Response)
    (reply : XmlValue) (tag : String) (e : GoError) (hread : httpReply.Body.err = none)
    (hparse : faultParseError xml httpReply = some e) :
    ReadAndParse xml httpReply reply tag =
      ⟨some (GoError.annotated e "decode fault info"), reply,
        [Effect.log httpReply.Status httpReply.StatusCode tag, Effect.read, Effect.close,
          Effect.unmarshalFault]⟩ := by
  simp only [faultParseError, initialEnvelope] at hparse
  simp [ReadAndParse, ReadAll, hread, Annotate, hparse]

/-- `ReadAndParse` when the body is read, the fault parse succeeds and the
fault test holds. -/
theorem ReadAndParse_fault (xml : Unmarshaler) (httpReply : Response)
    (reply : XmlValue) (tag : String) (hread : httpReply.Body.err = none)
    (hparse : faultParseError xml httpReply = none)
    (hfault : httpReply.StatusCode ≠ 200 ∨ (decodedEnvelope xml httpReply).Fault.Code ≠ "") :
    ReadAndParse xml httpReply reply tag =
      ⟨some (GoError.fault (decodedEnvelope xml httpReply).Fault), reply,
        [Effect.log httpReply.Status httpReply.StatusCode tag, Effect.read, Effect.close,
          Effect.unmarshalFault]⟩ := by
  have hcond : (decodedEnvelope xml httpReply).Fault.StatusCode ≠ 200 ∨
      (decodedEnvelope xml httpReply).Fault.Code.utf8ByteSize > 0 := by
    rw [decodedEnvelope_StatusCode, utf8ByteSize_pos_iff]
    exact hfault
  simp only [faultParseError, initialEnvelope] at hparse
  simp only [decodedEnvelope, initialEnvelope] at hcond
  simp only [ReadAndParse, ReadAll, hread, hparse, decodedEnvelope, initialEnvelope]
  simp [hcond]

/-- `ReadAndParse` when the body is read, the fault parse succeeds and the
fault test fails. -/
theorem ReadAndParse_decode (xml : Unmarshaler) (httpReply : Response)
    (reply : XmlValue) (tag : String) (hread : httpReply.Body.err = none)
    (hparse : faultParseError xml httpReply = none)
    (hstatus : httpReply.StatusCode = 200)
    (hcode : (decodedEnvelope xml httpReply).Fault.Code = "") :
    ReadAndParse xml httpReply reply tag =
      ⟨Annotate (xml httpReply.Body.data reply).2 "decode", (xml httpReply.Body.data reply).1,
        [Effect.log httpReply.Status httpReply.StatusCode tag, Effect.read, Effect.close,
          Effect.unmarshalFault, Effect.unmarshalReply]⟩ := by
  have hcond : ¬ ((decodedEnvelope xml httpReply).Fault.StatusCode ≠ 200 ∨
      (decodedEnvelope xml httpReply).Fault.Code.utf8ByteSize > 0) := by
    rw [decodedEnvelope_StatusCode, utf8ByteSize_pos_iff]
    simp [hstatus, hcode]
  simp only [faultParseError, initialEnvelope] at hparse
  simp only [decodedEnvelope, initialEnvelope] at hcond
  simp only [ReadAndParse, ReadAll, hread, hparse, decodedEnvelope, initialEnvelope]
  simp [hcond]

/-! ## The step bounds of the decoder model are never reached -/

theorem syntaxError_ne_outOfFuel (msg : String) : GoError.syntaxError msg ≠ outOfFuel := by
  simp [outOfFuel]

theorem unexpectedEOF_ne_outOfFuel : unexpectedEOF ≠ outOfFuel := by
  simp [outOfFuel, unexpectedEOF]

theorem Shrinks_mono {α : Type} {l l2 : List Char} {r : Except GoError (α × List Char)}
    (h : Shrinks l r) (hl : l.length ≤ l2.length) : Shrinks l2 r := by
  cases r with
  | error e => exact h
  | ok p =>
    obtain ⟨a, rest⟩ := p
    exact Nat.le_trans h hl

theorem space_length (l : List Char) : (space l).length ≤ l.length := by
  induction l with
  | nil => simp [space]
  | cons c rest ih =>
    unfold space
    split
    · exact Nat.le_succ_of_le ih
    · exact Nat.le_refl _

theorem readNameTail_length (l n r : List Char) (h : readNameTail l = some (n, r)) :
    r.length ≤ l.length := by
  induction l generalizing n r with
  | nil => simp [readNameTail] at h
  | cons c rest ih =>
    unfold readNameTail at h
    split at h
    · simp only [Option.some.injEq, Prod.mk.injEq] at h
      rw [← h.2]
    · split at h
      · cases h
      · rename_i n1 r1 heq
        simp only [Option.some.injEq, Prod.mk.injEq] at h
        rw [← h.2]
        exact Nat.le_succ_of_le (ih n1 r1 heq)

theorem readName_result (l : List Char) : NameResult l (readName l) := by
  cases l with
  | nil => exact unexpectedEOF_ne_outOfFuel
  | cons c rest =>
    simp only [readName]
    split
    · exact Nat.le_refl _
    · split
      · exact unexpectedEOF_ne_outOfFuel
      · rename_i n r heq
        exact Nat.lt_succ_of_le (readNameTail_length rest n r heq)

theorem name_result (l : List Char) : NameResult l (name l) := by
  have h := readName_result l
  unfold name
  split
  · rename_i e heq
    rw [heq] at h
    exact h
  · rename_i rest heq
    rw [heq] at h
    exact h
  · rename_i n rest heq
    rw [heq] at h
    split
    · exact h
    · exact syntaxError_ne_outOfFuel _

theorem nsname_result (l : List Char) : NameResult l (nsname l) := by
  have h := name_result l
  unfold nsname
  split
  · rename_i e heq
    rw [heq] at h
    exact h
  · rename_i rest heq
    rw [heq] at h
    exact h
  · rename_i n rest heq
    rw [heq] at h
    split
    · exact Nat.le_of_lt h
    · dsimp only
      split
      · exact h
      · exact h

theorem dropWhile_cons_length (p : Char → Bool) (l : List Char) (c : Char) (r : List Char)
    (h : l.dropWhile p = c :: r) : r.length < l.length := by
  have := (List.dropWhile_sublist (l := l) p).length_le
  rw [h] at this
  simp only [List.length_cons] at this
  omega

theorem charReference_result (base : Nat) (pre body : List Char) :
    Shrinks body (charReference base pre body) := by
  unfold charReference
  dsimp only
  split
  · exact unexpectedEOF_ne_outOfFuel
  · rename_i c rest heq
    have hlen := dropWhile_cons_length _ _ c rest heq
    split
    · exact syntaxError_ne_outOfFuel _
    · split
      · exact Nat.le_of_lt hlen
      · exact syntaxError_ne_outOfFuel _

theorem entityReference_result (l : List Char) : Shrinks l (entityReference l) := by
  have h := readName_result l
  unfold entityReference
  split
  · rename_i e heq
    rw [heq] at h
    exact h
  · rename_i n rest heq
    rw [heq] at h
    have hrest : rest.length ≤ l.length := by
      cases n with
      | none => exact h
      | some m => exact Nat.le_of_lt h
    split
    · exact unexpectedEOF_ne_outOfFuel
    · rename_i c rest1
      split
      · exact syntaxError_ne_outOfFuel _
      · split
        · show rest1.length ≤ l.length
          simp only [List.length_cons] at hrest
          omega
        · exact syntaxError_ne_outOfFuel _

theorem reference_result (l : List Char) : Shrinks l (reference l) := by
  unfold reference
  split
  · exact unexpectedEOF_ne_outOfFuel
  · exact unexpectedEOF_ne_outOfFuel
  · exact Shrinks_mono (charReference_result _ _ _) (by simp only [List.length_cons]; omega)
  · exact Shrinks_mono (charReference_result _ _ _) (by simp only [List.length_cons]; omega)
  · exact entityReference_result _

theorem textLoop_result (quote : Option Char) (cdata : Bool) (fuel : Nat) :
    ∀ (b0 b1 : Option Char) (buf l : List Char), l.length < fuel →
      Shrinks l (textLoop quote cdata fuel b0 b1 buf l) := by
  induction fuel with
  | zero => intro b0 b1 buf l h; omega
  | succ fuel ih =>
    intro b0 b1 buf l h
    cases l with
    | nil =>
      simp only [textLoop]
      split
      · exact syntaxError_ne_outOfFuel _
      · exact Nat.le_refl _
    | cons b rest =>
      have hrest : rest.length < fuel := by
        simp only [List.length_cons] at h
        omega
      simp only [textLoop]
      split
      · split
        · show rest.length ≤ rest.length + 1
          omega
        · exact syntaxError_ne_outOfFuel _
      · split
        · split
          · exact syntaxError_ne_outOfFuel _
          · exact Nat.le_refl _
        · split
          · show rest.length ≤ rest.length + 1
            omega
          · split
            · split
              · rename_i e heq
                have hr := reference_result rest
                rw [heq] at hr
                exact hr
              · rename_i r rest1 heq
                have hr := reference_result rest
                rw [heq] at hr
                have hr1 : rest1.length ≤ rest.length := hr
                exact Shrinks_mono (ih none none (r :: buf) rest1 (by omega))
                  (by simp only [List.length_cons]; omega)
            · split
              · exact Shrinks_mono (ih _ _ _ rest hrest) (by simp)
              · split
                · exact Shrinks_mono (ih _ _ _ rest hrest) (by simp)
                · exact Shrinks_mono (ih _ _ _ rest hrest) (by simp)

theorem checkRange_ne_outOfFuel (data : List Char) (e : GoError) (h : checkRange data = some e) :
    e ≠ outOfFuel := by
  induction data with
  | nil => simp [checkRange] at h
  | cons c rest ih =>
    unfold checkRange at h
    split at h
    · exact ih h
    · simp only [Option.some.injEq] at h
      rw [← h]
      exact syntaxError_ne_outOfFuel _

theorem text_result (quote : Option Char) (cdata : Bool) (l : List Char) :
    Shrinks l (text quote cdata l) := by
  have h := textLoop_result quote cdata (l.length + 1) none none [] l (Nat.lt_succ_self _)
  unfold text
  split
  · rename_i e heq
    rw [heq] at h
    exact h
  · rename_i data rest heq
    rw [heq] at h
    split
    · rename_i e he
      exact checkRange_ne_outOfFuel data e he
    · exact h

theorem textLoop_result_strict (quote : Option Char) (cdata : Bool) (b : Char)
    (rest : List Char) (b0 b1 : Option Char) (buf : List Char)
    (hb : (b == '<' && !cdata) = false) :
    ShrinksStrict (b :: rest)
      (textLoop quote cdata ((b :: rest).length + 1) b0 b1 buf (b :: rest)) := by
  have hlt : rest.length < rest.length + 1 := Nat.lt_succ_self _
  have step : ∀ (c0 c1 : Option Char) (buf1 rest1 : List Char), rest1.length ≤ rest.length →
      ShrinksStrict (b :: rest) (textLoop quote cdata (rest.length + 1) c0 c1 buf1 rest1) := by
    intro c0 c1 buf1 rest1 hle
    have h := textLoop_result quote cdata (rest.length + 1) c0 c1 buf1 rest1 (by omega)
    cases hres : textLoop quote cdata (rest.length + 1) c0 c1 buf1 rest1 with
    | error e => rw [hres] at h; exact h
    | ok p =>
      obtain ⟨data, r⟩ := p
      rw [hres] at h
      have h2 : r.length ≤ rest1.length := h
      show r.length < rest.length + 1
      omega
  simp only [List.length_cons, textLoop]
  split
  · split
    · show rest.length < rest.length + 1
      omega
    · exact syntaxError_ne_outOfFuel _
  · split
    · rename_i hlt2
      rw [hb] at hlt2
      cases hlt2
    · split
      · show rest.length < rest.length + 1
        omega
      · split
        · split
          · rename_i e heq
            have hr := reference_result rest
            rw [heq] at hr
            exact hr
          · rename_i r rest1 heq
            have hr := reference_result rest
            rw [heq] at hr
            exact step _ _ _ rest1 hr
        · split
          · exact step _ _ _ rest (Nat.le_refl _)
          · split
            · exact step _ _ _ rest (Nat.le_refl _)
            · exact step _ _ _ rest (Nat.le_refl _)

/-- A text that starts with a character other than `<` is not empty: the rest
after it is strictly shorter than the input. -/
theorem text_result_strict (b : Char) (rest : List Char) (hb : b ≠ '<') :
    ShrinksStrict (b :: rest) (text none false (b :: rest)) := by
  have hb2 : (b == '<' && !false) = false := by simpa using hb
  have hloop := textLoop_result_strict none false b rest none none [] hb2
  unfold text
  split
  · rename_i e heq
    rw [heq] at hloop
    exact hloop
  · rename_i data rest1 heq
    rw [heq] at hloop
    split
    · rename_i e he
      exact checkRange_ne_outOfFuel data e he
    · exact hloop

theorem commentLoop_result (l : List Char) :
    ∀ (b0 b1 : Option Char) (buf : List Char), Shrinks l (commentLoop b0 b1 buf l) := by
  induction l with
  | nil => intro b0 b1 buf; exact unexpectedEOF_ne_outOfFuel
  | cons b rest ih =>
    intro b0 b1 buf
    simp only [commentLoop]
    split
    · split
      · exact syntaxError_ne_outOfFuel _
      · show rest.length ≤ rest.length + 1
        omega
    · exact Shrinks_mono (ih _ _ _) (by simp)

theorem procInstLoop_result (l : List Char) :
    ∀ (b0 : Option Char) (buf : List Char), Shrinks l (procInstLoop b0 buf l) := by
  induction l with
  | nil => intro b0 buf; exact unexpectedEOF_ne_outOfFuel
  | cons b rest ih =>
    intro b0 buf
    simp only [procInstLoop]
    split
    · show rest.length ≤ rest.length + 1
      omega
    · exact Shrinks_mono (ih _ _) (by simp)

theorem directiveComment_result (l : List Char) :
    ∀ (b0 b1 : Option Char),
      match directiveComment b0 b1 l with
      | .error e => e ≠ outOfFuel
      | .ok rest => rest.length ≤ l.length := by
  induction l with
  | nil => intro b0 b1; exact unexpectedEOF_ne_outOfFuel
  | cons b rest ih =>
    intro b0 b1
    simp only [directiveComment]
    split
    · rename_i heq
      split at heq
      · cases heq
      · have h := ih b1 (some b)
        rw [heq] at h
        exact h
    · rename_i r heq
      split at heq
      · simp only [Except.ok.injEq] at heq
        rw [← heq]
        simp
      · have h := ih b1 (some b)
        rw [heq] at h
        exact Nat.le_succ_of_le h

theorem directiveLoop_result (fuel : Nat) :
    ∀ (pending inquote : Option Char) (depth : Nat) (buf l : List Char),
      2 * l.length + (if pending.isSome then 1 else 0) < fuel →
      Shrinks l (directiveLoop fuel pending inquote depth buf l) := by
  induction fuel with
  | zero => intro pending inquote depth buf l h; omega
  | succ fuel ih =>
    intro pending inquote depth buf l h
    have next : ∀ (p q : Option Char) (dp : Nat) (bf l1 : List Char),
        2 * l1.length + (if p.isSome then 1 else 0) < fuel → l1.length ≤ l.length →
        Shrinks l (directiveLoop fuel p q dp bf l1) := by
      intro p q dp bf l1 h1 h2
      exact Shrinks_mono (ih p q dp bf l1 h1) h2
    cases pending with
    | some b =>
      simp only [Option.isSome_some, if_true] at h
      have hl : 2 * l.length + (if (none : Option Char).isSome then 1 else 0) < fuel := by
        simp only [Option.isSome_none, Bool.false_eq_true, if_false]
        omega
      simp only [directiveLoop, Option.isNone_some, Bool.false_and, Bool.false_eq_true, if_false]
      split
      · exact next _ _ _ _ l hl (Nat.le_refl _)
      · split
        · exact next _ _ _ _ l hl (Nat.le_refl _)
        · split
          · exact next _ _ _ _ l hl (Nat.le_refl _)
          · split
            · exact next _ _ _ _ l hl (Nat.le_refl _)
            · split
              · split
                · exact unexpectedEOF_ne_outOfFuel
                · rename_i c0 r0
                  simp only [List.length_cons] at hl
                  split
                  · exact next _ _ _ _ r0 (by simp only [Option.isSome_some, if_true]; omega)
                      (by simp only [List.length_cons]; omega)
                  · split
                    · exact unexpectedEOF_ne_outOfFuel
                    · rename_i c1 r1
                      simp only [List.length_cons] at hl
                      split
                      · exact next _ _ _ _ r1 (by simp only [Option.isSome_some, if_true]; omega)
                          (by simp only [List.length_cons]; omega)
                      · split
                        · exact unexpectedEOF_ne_outOfFuel
                        · rename_i c2 r2
                          simp only [List.length_cons] at hl
                          split
                          · exact next _ _ _ _ r2
                              (by simp only [Option.isSome_some, if_true]; omega)
                              (by simp only [List.length_cons]; omega)
                          · split
                            · rename_i e heq
                              have hc := directiveComment_result r2 none none
                              rw [heq] at hc
                              exact hc
                            · rename_i r3 heq
                              have hc := directiveComment_result r2 none none
                              rw [heq] at hc
                              have hc3 : r3.length ≤ r2.length := hc
                              exact next _ _ _ _ r3
                                (by simp only [Option.isSome_none, Bool.false_eq_true, if_false]
                                    omega)
                                (by simp only [List.length_cons]; omega)
              · exact next _ _ _ _ l hl (Nat.le_refl _)
    | none =>
      simp only [Option.isSome_none, Bool.false_eq_true, if_false, Nat.add_zero] at h
      cases l with
      | nil =>
        simp only [directiveLoop]
        exact unexpectedEOF_ne_outOfFuel
      | cons b rest =>
        simp only [List.length_cons] at h
        have hl : 2 * rest.length + (if (none : Option Char).isSome then 1 else 0) < fuel := by
          simp only [Option.isSome_none, Bool.false_eq_true, if_false]
          omega
        have hle : rest.length ≤ (b :: rest).length := by simp
        simp only [directiveLoop, Option.isNone_none, Bool.true_and]
        split
        · show rest.length ≤ rest.length + 1
          omega
        · split
          · exact next _ _ _ _ rest hl hle
          · split
            · exact next _ _ _ _ rest hl hle
            · split
              · exact next _ _ _ _ rest hl hle
              · split
                · exact next _ _ _ _ rest hl hle
                · split
                  · split
                    · exact unexpectedEOF_ne_outOfFuel
                    · rename_i c0 r0
                      simp only [List.length_cons] at hl
                      split
                      · exact next _ _ _ _ r0
                          (by simp only [Option.isSome_some, if_true]; omega)
                          (by simp only [List.length_cons]; omega)
                      · split
                        · exact unexpectedEOF_ne_outOfFuel
                        · rename_i c1 r1
                          simp only [List.length_cons] at hl
                          split
                          · exact next _ _ _ _ r1
                              (by simp only [Option.isSome_some, if_true]; omega)
                              (by simp only [List.length_cons]; omega)
                          · split
                            · exact unexpectedEOF_ne_outOfFuel
                            · rename_i c2 r2
                              simp only [List.length_cons] at hl
                              split
                              · exact next _ _ _ _ r2
                                  (by simp only [Option.isSome_some, if_true]; omega)
                                  (by simp only [List.length_cons]; omega)
                              · split
                                · rename_i e heq
                                  have hc := directiveComment_result r2 none none
                                  rw [heq] at hc
                                  exact hc
                                · rename_i r3 heq
                                  have hc := directiveComment_result r2 none none
                                  rw [heq] at hc
                                  have hc3 : r3.length ≤ r2.length := hc
                                  exact next _ _ _ _ r3
                                    (by simp only [Option.isSome_none, Bool.false_eq_true,
                                          if_false]
                                        omega)
                                    (by simp only [List.length_cons]; omega)
                  · exact next _ _ _ _ rest hl hle

theorem AttrShrinks_mono {l l2 : List Char} {r : Except GoError (List Attr × Bool × List Char)}
    (h : AttrShrinks l r) (hl : l.length ≤ l2.length) : AttrShrinks l2 r := by
  cases r with
  | error e => exact h
  | ok p =>
    obtain ⟨a, b, rest⟩ := p
    exact Nat.le_trans h hl

theorem space_eq_length (l r : List Char) (h : space l = r) : r.length ≤ l.length := by
  rw [← h]
  exact space_length l

theorem attrLoop_result (fuel : Nat) :
    ∀ (attr : List Attr) (l : List Char), l.length < fuel →
      AttrShrinks l (attrLoop fuel attr l) := by
  induction fuel with
  | zero => intro attr l h; omega
  | succ fuel ih =>
    intro attr l h
    simp only [attrLoop]
    split
    · exact unexpectedEOF_ne_outOfFuel
    · rename_i rest heq
      have hs := space_eq_length _ _ heq
      simp only [List.length_cons] at hs
      split
      · exact unexpectedEOF_ne_outOfFuel
      · rename_i b rest1
        split
        · exact syntaxError_ne_outOfFuel _
        · show rest1.length ≤ l.length
          simp only [List.length_cons] at hs
          omega
    · rename_i rest heq
      have hs := space_eq_length _ _ heq
      simp only [List.length_cons] at hs
      show rest.length ≤ l.length
      omega
    · rename_i b rest h1 h2 heq
      have hs := space_eq_length _ _ heq
      have hn := nsname_result (b :: rest)
      split
      · rename_i e he
        rw [he] at hn
        exact hn
      · exact syntaxError_ne_outOfFuel _
      · rename_i nm rest1 he
        rw [he] at hn
        have hn1 : rest1.length < (b :: rest).length := hn
        split
        · exact unexpectedEOF_ne_outOfFuel
        · rename_i e rest2 heq2
          have hs2 := space_eq_length _ _ heq2
          simp only [List.length_cons] at hs2
          split
          · exact syntaxError_ne_outOfFuel _
          · split
            · exact unexpectedEOF_ne_outOfFuel
            · rename_i q rest3 heq3
              have hs3 := space_eq_length _ _ heq3
              simp only [List.length_cons] at hs3
              split
              · have ht := text_result (some q) false rest3
                split
                · rename_i err hte
                  rw [hte] at ht
                  exact ht
                · rename_i data rest4 hte
                  rw [hte] at ht
                  have ht4 : rest4.length ≤ rest3.length := ht
                  exact AttrShrinks_mono (ih _ rest4 (by omega)) (by omega)
              · exact syntaxError_ne_outOfFuel _

theorem eof_ne_outOfFuel : GoError.eof ≠ outOfFuel := by
  simp [outOfFuel]

theorem size_lt (input rest : List Char) (stk stk1 : List Name) (nc : Option Name)
    (h : rest.length < input.length) :
    Decoder.size ⟨rest, stk1, nc⟩ < Decoder.size ⟨input, stk, none⟩ := by
  simp only [Decoder.size, Option.isSome_none, Bool.false_eq_true, if_false]
  split <;> omega

theorem rawToken_result (d : Decoder) : TokenResult d (rawToken d) := by
  obtain ⟨input, stk, needClose⟩ := d
  cases needClose with
  | some nm =>
    simp only [rawToken]
    show Decoder.size _ < Decoder.size _
    simp [Decoder.size]
  | none =>
    simp only [rawToken]
    split
    · exact eof_ne_outOfFuel
    · rename_i rest
      split
      · exact unexpectedEOF_ne_outOfFuel
      · rename_i rest1
        have hn := nsname_result rest1
        split
        · rename_i e he
          rw [he] at hn
          exact hn
        · exact syntaxError_ne_outOfFuel _
        · rename_i nm rest2 he
          rw [he] at hn
          have hn1 : rest2.length < rest1.length := hn
          split
          · exact unexpectedEOF_ne_outOfFuel
          · rename_i b rest3 hsp
            have hs := space_eq_length _ _ hsp
            simp only [List.length_cons] at hs
            split
            · exact syntaxError_ne_outOfFuel _
            · exact size_lt _ _ _ _ _ (by simp only [List.length_cons]; omega)
      · rename_i rest1
        have hn := name_result rest1
        split
        · rename_i e he
          rw [he] at hn
          exact hn
        · exact syntaxError_ne_outOfFuel _
        · rename_i target rest2 he
          rw [he] at hn
          have hn1 : rest2.length < rest1.length := hn
          have hp := procInstLoop_result (space rest2) none []
          have hsp := space_length rest2
          split
          · rename_i e hpe
            rw [hpe] at hp
            exact hp
          · rename_i data rest3 hpe
            rw [hpe] at hp
            have hp3 : rest3.length ≤ (space rest2).length := hp
            dsimp only
            split
            · exact (by simp [outOfFuel] : GoError.unsupportedVersion _ ≠ outOfFuel)
            · split
              · exact (by simp [outOfFuel] : GoError.unsupportedEncoding _ ≠ outOfFuel)
              · exact size_lt _ _ _ _ _ (by simp only [List.length_cons]; omega)
      · rename_i rest1
        split
        · exact unexpectedEOF_ne_outOfFuel
        · rename_i rest2
          split
          · exact unexpectedEOF_ne_outOfFuel
          · rename_i b rest3
            split
            · exact syntaxError_ne_outOfFuel _
            · have hc := commentLoop_result rest3 none none []
              split
              · rename_i e hce
                rw [hce] at hc
                exact hc
              · rename_i data rest4 hce
                rw [hce] at hc
                have hc4 : rest4.length ≤ rest3.length := hc
                exact size_lt _ _ _ _ _ (by simp only [List.length_cons]; omega)
        · rename_i rest2
          split
          · have ht := text_result none true (List.drop 6 rest2)
            have hd : (List.drop 6 rest2).length ≤ rest2.length := by
              simp only [List.length_drop]
              omega
            split
            · rename_i e hte
              rw [hte] at ht
              exact ht
            · rename_i data rest3 hte
              rw [hte] at ht
              have ht3 : rest3.length ≤ (List.drop 6 rest2).length := ht
              exact size_lt _ _ _ _ _ (by simp only [List.length_cons]; omega)
          · split
            · exact unexpectedEOF_ne_outOfFuel
            · exact syntaxError_ne_outOfFuel _
        · rename_i b rest2 h1 h2
          have hdl := directiveLoop_result (2 * rest2.length + 2) none none 0 [b] rest2
            (by simp only [Option.isSome_none, Bool.false_eq_true, if_false]; omega)
          split
          · rename_i e hde
            rw [hde] at hdl
            exact hdl
          · rename_i data rest3 hde
            rw [hde] at hdl
            have hd3 : rest3.length ≤ rest2.length := hdl
            exact size_lt _ _ _ _ _ (by simp only [List.length_cons]; omega)
      · rename_i b rest1 h1 h2 h3
        have hn := nsname_result (b :: rest1)
        split
        · rename_i e he
          rw [he] at hn
          exact hn
        · exact syntaxError_ne_outOfFuel _
        · rename_i nm rest2 he
          rw [he] at hn
          have hn1 : rest2.length < (b :: rest1).length := hn
          have ha := attrLoop_result (rest2.length + 1) [] rest2 (Nat.lt_succ_self _)
          split
          · rename_i e hae
            rw [hae] at ha
            exact ha
          · rename_i attr empty rest3 hae
            rw [hae] at ha
            have ha3 : rest3.length ≤ rest2.length := ha
            simp only [List.length_cons] at hn1
            exact size_lt _ _ _ _ _ (by simp only [List.length_cons]; omega)
    · rename_i b rest hb
      have hne : b ≠ '<' := hb
      have ht := text_result_strict b rest hne
      split
      · rename_i e hte
        rw [hte] at ht
        exact ht
      · rename_i data rest1 hte
        rw [hte] at ht
        exact size_lt _ _ _ _ _ ht

theorem Token_result (d : Decoder) : TokenResult d (Decoder.Token d) := by
  have h := rawToken_result d
  unfold Decoder.Token
  split
  · rename_i e he
    rw [he] at h
    split
    · exact unexpectedEOF_ne_outOfFuel
    · exact h
  · rename_i nm attr d1 he
    rw [he] at h
    exact h
  · rename_i nm d1 he
    rw [he] at h
    split
    · exact syntaxError_ne_outOfFuel _
    · split
      · exact syntaxError_ne_outOfFuel _
      · split
        · exact syntaxError_ne_outOfFuel _
        · exact h
  · rename_i t d1 h1 h2 he
    rw [he] at h
    exact h

theorem DecShrinks_mono {d d0 : Decoder} {r : Except GoError Decoder}
    (h : DecShrinks d r) (hd : d.size ≤ d0.size) : DecShrinks d0 r := by
  cases r with
  | error e => exact h
  | ok d1 => exact Nat.le_trans h hd

theorem DataShrinks_mono {d d0 : Decoder} {r : Except GoError (List Char × Decoder)}
    (h : DataShrinks d r) (hd : d.size ≤ d0.size) : DataShrinks d0 r := by
  cases r with
  | error e => exact h
  | ok p =>
    obtain ⟨dt, d1⟩ := p
    exact Nat.le_trans h hd

theorem Skip_result (fuel : Nat) :
    ∀ (depth : Nat) (d : Decoder), d.size < fuel → DecShrinks d (Decoder.Skip fuel depth d) := by
  induction fuel with
  | zero => intro depth d h; omega
  | succ fuel ih =>
    intro depth d h
    have ht := Token_result d
    have next : ∀ (dp : Nat) (d1 : Decoder), d1.size < d.size →
        DecShrinks d (Decoder.Skip fuel dp d1) := by
      intro dp d1 h1
      exact DecShrinks_mono (ih dp d1 (by omega)) (Nat.le_of_lt h1)
    simp only [Decoder.Skip]
    split
    · rename_i e he
      rw [he] at ht
      exact ht
    · rename_i nm attr d1 he
      rw [he] at ht
      exact next _ d1 ht
    · rename_i nm d1 he
      rw [he] at ht
      have ht1 : d1.size < d.size := ht
      split
      · exact Nat.le_of_lt ht1
      · exact next _ d1 ht
    · rename_i t d1 h1 h2 he
      rw [he] at ht
      exact next _ d1 ht

theorem dataLoop_result (fuel : Nat) :
    ∀ (data : List Char) (d : Decoder), d.size < fuel →
      DataShrinks d (dataLoop fuel data d) := by
  induction fuel with
  | zero => intro data d h; omega
  | succ fuel ih =>
    intro data d h
    have ht := Token_result d
    have next : ∀ (dt : List Char) (d1 : Decoder), d1.size < d.size →
        DataShrinks d (dataLoop fuel dt d1) := by
      intro dt d1 h1
      exact DataShrinks_mono (ih dt d1 (by omega)) (Nat.le_of_lt h1)
    simp only [dataLoop]
    split
    · rename_i e he
      rw [he] at ht
      exact ht
    · rename_i nm attr d1 he
      rw [he] at ht
      have ht1 : d1.size < d.size := ht
      have hs := Skip_result fuel 0 d1 (by omega)
      split
      · rename_i e hse
        rw [hse] at hs
        exact hs
      · rename_i d2 hse
        rw [hse] at hs
        have hs2 : d2.size ≤ d1.size := hs
        exact next _ d2 (by omega)
    · rename_i nm d1 he
      rw [he] at ht
      exact Nat.le_of_lt ht
    · rename_i t d1 he
      rw [he] at ht
      exact next _ d1 ht
    · rename_i t d1 h1 h2 h3 he
      rw [he] at ht
      exact next _ d1 ht

theorem findStart_result (fuel : Nat) :
    ∀ (d : Decoder), d.size < fuel → DecShrinks d (findStart fuel d) := by
  induction fuel with
  | zero => intro d h; omega
  | succ fuel ih =>
    intro d h
    have ht := Token_result d
    simp only [findStart]
    split
    · rename_i e he
      rw [he] at ht
      exact ht
    · rename_i nm attr d1 he
      rw [he] at ht
      exact Nat.le_of_lt ht
    · rename_i t d1 h1 he
      rw [he] at ht
      have ht1 : d1.size < d.size := ht
      exact DecShrinks_mono (ih d1 (by omega)) (Nat.le_of_lt ht1)

theorem LoopOk_mono {α : Type} {d d0 : Decoder} {r : α × Decoder × Option GoError}
    (h : LoopOk d r) (hd : d.size ≤ d0.size) : LoopOk d0 r := by
  obtain ⟨a, d1, e⟩ := r
  cases e with
  | some e => exact h
  | none => exact Nat.le_trans h hd

theorem errUnmarshalDepth_ne_outOfFuel : errUnmarshalDepth ≠ outOfFuel := by
  decide

theorem parseInt_ne_outOfFuel (s : List Char) (e : GoError) (h : parseInt s = .error e) :
    e ≠ outOfFuel := by
  unfold parseInt at h
  simp only at h
  repeat' split at h
  all_goals (cases h <;> simp [outOfFuel])

theorem unmarshalOk (fuel : Nat) : UnmarshalOk fuel := by
  induction fuel with
  | zero =>
    refine ⟨?_, ?_, ?_, ?_⟩ <;> intros <;> omega
  | succ fuel ih =>
    obtain ⟨ihU, ihS, ihP, ihL⟩ := ih
    refine ⟨?_, ?_, ?_, ?_⟩
    · intro depth v d h
      unfold unmarshal
      split
      · exact errUnmarshalDepth_ne_outOfFuel
      · split
        · rename_i fields
          have hs := ihS depth fields d (by omega)
          generalize structLoop fuel depth fields d = r at hs
          obtain ⟨fs, d1, e⟩ := r
          cases e with
          | some e => exact hs
          | none => exact hs
        · rename_i s
          have hd := dataLoop_result fuel [] d (by omega)
          split
          · rename_i e heq
            rw [heq] at hd
            exact hd
          · rename_i data d1 heq
            rw [heq] at hd
            exact hd
        · rename_i n
          have hd := dataLoop_result fuel [] d (by omega)
          split
          · rename_i e heq
            rw [heq] at hd
            exact hd
          · rename_i data d1 heq
            rw [heq] at hd
            split
            · exact hd
            · split
              · rename_i e hpe
                exact parseInt_ne_outOfFuel _ e hpe
              · exact hd
    · intro depth fs d h
      have ht := Token_result d
      simp only [structLoop]
      split
      · rename_i e he
        rw [he] at ht
        exact ht
      · rename_i nm attr d1 he
        rw [he] at ht
        have ht1 : d1.size < d.size := ht
        have hp := ihP depth fs [] nm.Local d1 (by omega)
        split
        · rename_i fs2 d2 c e heq
          rw [heq] at hp
          exact hp
        · rename_i fs2 d2 heq
          rw [heq] at hp
          have hp2 : d2.size ≤ d1.size := hp
          exact LoopOk_mono (ihS depth fs2 d2 (by omega)) (by omega)
        · rename_i fs2 d2 heq
          rw [heq] at hp
          have hp2 : d2.size ≤ d1.size := hp
          have hs := Skip_result fuel 0 d2 (by omega)
          split
          · rename_i e hse
            rw [hse] at hs
            exact hs
          · rename_i d3 hse
            rw [hse] at hs
            have hs3 : d3.size ≤ d2.size := hs
            exact LoopOk_mono (ihS depth fs2 d3 (by omega)) (by omega)
      · rename_i nm d1 he
        rw [he] at ht
        exact Nat.le_of_lt ht
      · rename_i t d1 h1 h2 he
        rw [he] at ht
        have ht1 : d1.size < d.size := ht
        exact LoopOk_mono (ihS depth fs d1 (by omega)) (by omega)
    · intro depth fs ps loc d h
      simp only [unmarshalPath]
      split
      · exact Nat.le_refl _
      · split
        · exact Nat.le_refl _
        · rename_i i x v hget
          have hu := ihU (depth + 1) v d (by omega)
          generalize unmarshal fuel (depth + 1) v d = r at hu
          obtain ⟨v1, d1, e⟩ := r
          cases e with
          | some e => exact hu
          | none => exact hu
      · rename_i ps2 hm
        have hl := ihL depth fs ps2 d (by omega)
        generalize pathLoop fuel depth fs ps2 d = r at hl
        obtain ⟨fs2, d1, e⟩ := r
        cases e with
        | some e => exact hl
        | none => exact hl
    · intro depth fs ps d h
      have ht := Token_result d
      simp only [pathLoop]
      split
      · rename_i e he
        rw [he] at ht
        exact ht
      · rename_i nm attr d1 he
        rw [he] at ht
        have ht1 : d1.size < d.size := ht
        have hp := ihP depth fs ps nm.Local d1 (by omega)
        split
        · rename_i fs2 d2 c e heq
          rw [heq] at hp
          exact hp
        · rename_i fs2 d2 heq
          rw [heq] at hp
          have hp2 : d2.size ≤ d1.size := hp
          exact LoopOk_mono (ihL depth fs2 ps d2 (by omega)) (by omega)
        · rename_i fs2 d2 heq
          rw [heq] at hp
          have hp2 : d2.size ≤ d1.size := hp
          have hs := Skip_result fuel 0 d2 (by omega)
          split
          · rename_i e hse
            rw [hse] at hs
            exact hs
          · rename_i d3 hse
            rw [hse] at hs
            have hs3 : d3.size ≤ d2.size := hs
            exact LoopOk_mono (ihL depth fs2 ps d3 (by omega)) (by omega)
      · rename_i nm d1 he
        rw [he] at ht
        exact Nat.le_of_lt ht
      · rename_i t d1 h1 h2 he
        rw [he] at ht
        have ht1 : d1.size < d.size := ht
        exact LoopOk_mono (ihL depth fs ps d1 (by omega)) (by omega)

/-- The call `xml.Unmarshal` of the model never ends for want of fuel: the step
bound of `xmlUnmarshal` is out of reach for every body and every value. -/
theorem xmlUnmarshal_fuel (b : String) (v : XmlValue) :
    (xmlUnmarshal b v).2 ≠ some outOfFuel := by
  have hsize : Decoder.size ⟨b.data, [], none⟩ = 2 * b.data.length := by
    simp [Decoder.size]
  have hf := findStart_result (8 * b.data.length + 16) ⟨b.data, [], none⟩ (by omega)
  simp only [xmlUnmarshal]
  split
  · rename_i e heq
    rw [heq] at hf
    intro h
    simp only [Option.some.injEq] at h
    exact hf h
  · rename_i d heq
    rw [heq] at hf
    have hd : d.size ≤ Decoder.size ⟨b.data, [], none⟩ := hf
    have hu := (unmarshalOk (8 * b.data.length + 16)).1 0 v d (by omega)
    generalize unmarshal (8 * b.data.length + 16) 0 v d = r at hu
    obtain ⟨v1, d1, e⟩ := r
    cases e with
    | none => simp
    | some e =>
      intro h
      simp only [Option.some.injEq] at h
      exact hu h

/-! ## The decoder model extracts the texts of a fault envelope -/

theorem plainChar_facts (c : Char) (h : plainChar c = true) :
    isInCharacterRange c = true ∧ (c == '<') = false ∧ (c == '&') = false ∧
      (c == '>') = false ∧ (c == '\r') = false := by
  simp only [plainChar, Bool.and_eq_true, bne_iff_ne, ne_eq] at h
  obtain ⟨⟨⟨⟨h1, h2⟩, h3⟩, h4⟩, h5⟩ := h
  refine ⟨h1, ?_, ?_, ?_, ?_⟩ <;> simpa using ‹_›

theorem textLoop_plain (rest : List Char) :
    ∀ (cs : List Char) (fuel : Nat) (b0 b1 : Option Char) (buf : List Char),
      cs.all plainChar = true → cs.length < fuel → b1 ≠ some '\r' →
      textLoop none false fuel b0 b1 buf (cs ++ '<' :: rest) =
        .ok (buf.reverse ++ cs, '<' :: rest) := by
  intro cs
  induction cs with
  | nil =>
    intro fuel b0 b1 buf _ hfuel _
    obtain ⟨f, rfl⟩ : ∃ f, fuel = f + 1 := ⟨fuel - 1, by simp at hfuel; omega⟩
    simp [textLoop]
  | cons c cs ih =>
    intro fuel b0 b1 buf hplain hfuel hb1
    obtain ⟨f, rfl⟩ : ∃ f, fuel = f + 1 := ⟨fuel - 1, by simp at hfuel; omega⟩
    simp only [List.all_cons, Bool.and_eq_true] at hplain
    obtain ⟨hc, hcs⟩ := hplain
    obtain ⟨_, h2, h3, h4, h5⟩ := plainChar_facts c hc
    have hb1' : (b1 == some '\r') = false := by
      cases b1 with
      | none => rfl
      | some x =>
        have : x ≠ '\r' := fun h => hb1 (by rw [h])
        simpa using this
    have hnext : (some c : Option Char) ≠ some '\r' := by
      intro h
      simp only [Option.some.injEq] at h
      rw [h] at h5
      simp at h5
    have hlen : cs.length < f := by
      simp only [List.length_cons] at hfuel
      omega
    simp only [List.cons_append, textLoop, h2, h3, h4, h5, hb1', Bool.and_false, Bool.false_and,
      Bool.false_eq_true, if_false, Bool.not_false, Bool.and_true]
    have hq : ((none : Option Char) == some c) = false := rfl
    simp only [hq, Bool.false_eq_true, if_false]
    refine Eq.trans (ih f b1 (some c) (c :: buf) hcs hlen hnext) ?_
    simp

theorem checkRange_plain (cs : List Char) (h : cs.all plainChar = true) :
    checkRange cs = none := by
  induction cs with
  | nil => rfl
  | cons c cs ih =>
    simp only [List.all_cons, Bool.and_eq_true] at h
    simp only [checkRange, (plainChar_facts c h.1).1, if_true]
    exact ih h.2

theorem text_plain (cs rest : List Char) (h : cs.all plainChar = true) :
    text none false (cs ++ '<' :: rest) = .ok (cs, '<' :: rest) := by
  have hl := textLoop_plain rest cs ((cs ++ '<' :: rest).length + 1) none none [] h
    (by simp; omega) (by simp)
  simp only [text, hl, List.reverse_nil, List.nil_append, checkRange_plain cs h]

/-- The decoder turns plain text in front of a tag into one `CharData` token. -/
theorem Token_plain (c : Char) (cs rest : List Char) (stk : List Name)
    (h : (c :: cs).all plainChar = true) :
    Decoder.Token ⟨(c :: cs) ++ '<' :: rest, stk, none⟩ =
      .ok (Token.CharData (c :: cs), ⟨'<' :: rest, stk, none⟩) := by
  have ht := text_plain (c :: cs) rest h
  have hc : c ≠ '<' := by
    simp only [List.all_cons, Bool.and_eq_true] at h
    have := (plainChar_facts c h.1).2.1
    simpa using this
  have hraw : rawToken ⟨(c :: cs) ++ '<' :: rest, stk, none⟩ =
      .ok (Token.CharData (c :: cs), ⟨'<' :: rest, stk, none⟩) := by
    simp only [rawToken, List.cons_append]
    simp only [List.cons_append] at ht
    rw [ht]
  simp only [Decoder.Token, hraw]

theorem tok_start_Envelope (rest : List Char) (stk : List Name) :
    Decoder.Token ⟨openTag "Envelope" ++ rest, stk, none⟩ =
      .ok (Token.StartElement ⟨"", "Envelope"⟩ [], ⟨rest, ⟨"", "Envelope"⟩ :: stk, none⟩) := by
  rfl

theorem tok_end_Envelope (rest : List Char) (stk : List Name) :
    Decoder.Token ⟨closeTag "Envelope" ++ rest, ⟨"", "Envelope"⟩ :: stk, none⟩ =
      .ok (Token.EndElement ⟨"", "Envelope"⟩, ⟨rest, stk, none⟩) := by
  rfl

theorem tok_start_Body (rest : List Char) (stk : List Name) :
    Decoder.Token ⟨openTag "Body" ++ rest, stk, none⟩ =
      .ok (Token.StartElement ⟨"", "Body"⟩ [], ⟨rest, ⟨"", "Body"⟩ :: stk, none⟩) := by
  rfl

theorem tok_end_Body (rest : List Char) (stk : List Name) :
    Decoder.Token ⟨closeTag "Body" ++ rest, ⟨"", "Body"⟩ :: stk, none⟩ =
      .ok (Token.EndElement ⟨"", "Body"⟩, ⟨rest, stk, none⟩) := by
  rfl

theorem tok_start_Fault (rest : List Char) (stk : List Name) :
    Decoder.Token ⟨openTag "Fault" ++ rest, stk, none⟩ =
      .ok (Token.StartElement ⟨"", "Fault"⟩ [], ⟨rest, ⟨"", "Fault"⟩ :: stk, none⟩) := by
  rfl

theorem tok_end_Fault (rest : List Char) (stk : List Name) :
    Decoder.Token ⟨closeTag "Fault" ++ rest, ⟨"", "Fault"⟩ :: stk, none⟩ =
      .ok (Token.EndElement ⟨"", "Fault"⟩, ⟨rest, stk, none⟩) := by
  rfl

theorem tok_start_Code (rest : List Char) (stk : List Name) :
    Decoder.Token ⟨openTag "Code" ++ rest, stk, none⟩ =
      .ok (Token.StartElement ⟨"", "Code"⟩ [], ⟨rest, ⟨"", "Code"⟩ :: stk, none⟩) := by
  rfl

theorem tok_end_Code (rest : List Char) (stk : List Name) :
    Decoder.Token ⟨closeTag "Code" ++ rest, ⟨"", "Code"⟩ :: stk, none⟩ =
      .ok (Token.EndElement ⟨"", "Code"⟩, ⟨rest, stk, none⟩) := by
  rfl

theorem tok_start_Value (rest : List Char) (stk : List Name) :
    Decoder.Token ⟨openTag "Value" ++ rest, stk, none⟩ =
      .ok (Token.StartElement ⟨"", "Value"⟩ [], ⟨rest, ⟨"", "Value"⟩ :: stk, none⟩) := by
  rfl

theorem tok_end_Value (rest : List Char) (stk : List Name) :
    Decoder.Token ⟨closeTag "Value" ++ rest, ⟨"", "Value"⟩ :: stk, none⟩ =
      .ok (Token.EndElement ⟨"", "Value"⟩, ⟨rest, stk, none⟩) := by
  rfl

theorem tok_start_Subcode (rest : List Char) (stk : List Name) :
    Decoder.Token ⟨openTag "Subcode" ++ rest, stk, none⟩ =
      .ok (Token.StartElement ⟨"", "Subcode"⟩ [], ⟨rest, ⟨"", "Subcode"⟩ :: stk, none⟩) := by
  rfl

theorem tok_end_Subcode (rest : List Char) (stk : List Name) :
    Decoder.Token ⟨closeTag "Subcode" ++ rest, ⟨"", "Subcode"⟩ :: stk, none⟩ =
      .ok (Token.EndElement ⟨"", "Subcode"⟩, ⟨rest, stk, none⟩) := by
  rfl

theorem tok_start_Reason (rest : List Char) (stk : List Name) :
    Decoder.Token ⟨openTag "Reason" ++ rest, stk, none⟩ =
      .ok (Token.StartElement ⟨"", "Reason"⟩ [], ⟨rest, ⟨"", "Reason"⟩ :: stk, none⟩) := by
  rfl

theorem tok_end_Reason (rest : List Char) (stk : List Name) :
    Decoder.Token ⟨closeTag "Reason" ++ rest, ⟨"", "Reason"⟩ :: stk, none⟩ =
      .ok (Token.EndElement ⟨"", "Reason"⟩, ⟨rest, stk, none⟩) := by
  rfl

theorem tok_start_Text (rest : List Char) (stk : List Name) :
    Decoder.Token ⟨openTag "Text" ++ rest, stk, none⟩ =
      .ok (Token.StartElement ⟨"", "Text"⟩ [], ⟨rest, ⟨"", "Text"⟩ :: stk, none⟩) := by
  rfl

theorem tok_end_Text (rest : List Char) (stk : List Name) :
    Decoder.Token ⟨closeTag "Text" ++ rest, ⟨"", "Text"⟩ :: stk, none⟩ =
      .ok (Token.EndElement ⟨"", "Text"⟩, ⟨rest, stk, none⟩) := by
  rfl

theorem dataLoop_plain (fuel : Nat) (cs tl tl1 : List Char) (stk : List Name) (nm : Name)
    (d2 : Decoder) (htl : tl = '<' :: tl1)
    (hend : Decoder.Token ⟨tl, stk, none⟩ = .ok (Token.EndElement nm, d2))
    (hplain : cs.all plainChar = true) :
    dataLoop (fuel + 2) [] ⟨cs ++ tl, stk, none⟩ = .ok (cs, d2) := by
  cases cs with
  | nil =>
    simp only [List.nil_append, dataLoop, hend]
  | cons c cs =>
    have ht := Token_plain c cs tl1 stk hplain
    rw [← htl] at ht
    simp only [dataLoop, ht, hend, List.nil_append]

theorem unmarshal_string_plain (fuel depth : Nat) (old : String) (cs tl tl1 : List Char)
    (stk : List Name) (nm : Name) (d2 : Decoder) (hdepth : depth < maxUnmarshalDepth)
    (htl : tl = '<' :: tl1)
    (hend : Decoder.Token ⟨tl, stk, none⟩ = .ok (Token.EndElement nm, d2))
    (hplain : cs.all plainChar = true) :
    unmarshal (fuel + 3) depth (XmlValue.string old) ⟨cs ++ tl, stk, none⟩ =
      (XmlValue.string (String.mk cs), d2, none) := by
  have hd : ¬ depth ≥ maxUnmarshalDepth := by omega
  simp only [unmarshal, hd, if_false,
    dataLoop_plain fuel cs tl tl1 stk nm d2 htl hend hplain]

theorem unmarshal_Value_plain (n depth : Nat) (old : String) (cs rest : List Char)
    (stk : List Name) (hdepth : depth < maxUnmarshalDepth) (hplain : cs.all plainChar = true) :
    unmarshal (n + 3) depth (XmlValue.string old)
        ⟨cs ++ (closeTag "Value" ++ rest), ⟨"", "Value"⟩ :: stk, none⟩ =
      (XmlValue.string (String.mk cs), ⟨rest, stk, none⟩, none) :=
  unmarshal_string_plain n depth old cs (closeTag "Value" ++ rest) ("/Value>".data ++ rest)
    (⟨"", "Value"⟩ :: stk) ⟨"", "Value"⟩ ⟨rest, stk, none⟩ hdepth rfl (tok_end_Value rest stk) hplain

theorem unmarshal_Text_plain (n depth : Nat) (old : String) (cs rest : List Char)
    (stk : List Name) (hdepth : depth < maxUnmarshalDepth) (hplain : cs.all plainChar = true) :
    unmarshal (n + 3) depth (XmlValue.string old)
        ⟨cs ++ (closeTag "Text" ++ rest), ⟨"", "Text"⟩ :: stk, none⟩ =
      (XmlValue.string (String.mk cs), ⟨rest, stk, none⟩, none) :=
  unmarshal_string_plain n depth old cs (closeTag "Text" ++ rest) ("/Text>".data ++ rest)
    (⟨"", "Text"⟩ :: stk) ⟨"", "Text"⟩ ⟨rest, stk, none⟩ hdepth rfl (tok_end_Text rest stk) hplain

theorem matchField_Body (v : XmlValue) :
    matchField [] "Body" 0 [(⟨"Fault", ["Body"], "Fault"⟩, v)] = PathMatch.descend ["Body"] := rfl

theorem matchField_Body_Fault (v : XmlValue) :
    matchField ["Body"] "Fault" 0 [(⟨"Fault", ["Body"], "Fault"⟩, v)] = PathMatch.perfect 0 := rfl

theorem matchField_Code (a b c : XmlValue) :
    matchField [] "Code" 0 (faultFields a b c) = PathMatch.descend ["Code"] := rfl

theorem matchField_Code_Value (a b c : XmlValue) :
    matchField ["Code"] "Value" 0 (faultFields a b c) = PathMatch.perfect 0 := rfl

theorem matchField_Code_Subcode (a b c : XmlValue) :
    matchField ["Code"] "Subcode" 0 (faultFields a b c) =
      PathMatch.descend ["Code", "Subcode"] := rfl

theorem matchField_Code_Subcode_Value (a b c : XmlValue) :
    matchField ["Code", "Subcode"] "Value" 0 (faultFields a b c) = PathMatch.perfect 1 := rfl

theorem matchField_Reason (a b c : XmlValue) :
    matchField [] "Reason" 0 (faultFields a b c) = PathMatch.descend ["Reason"] := rfl

theorem matchField_Reason_Text (a b c : XmlValue) :
    matchField ["Reason"] "Text" 0 (faultFields a b c) = PathMatch.perfect 2 := rfl

theorem faultFields_get0 (a b c : XmlValue) :
    (faultFields a b c).get? 0 = some (⟨"Code", ["Code"], "Value"⟩, a) := rfl

theorem faultFields_get1 (a b c : XmlValue) :
    (faultFields a b c).get? 1 = some (⟨"Subcode", ["Code", "Subcode"], "Value"⟩, b) := rfl

theorem faultFields_get2 (a b c : XmlValue) :
    (faultFields a b c).get? 2 = some (⟨"Reason", ["Reason"], "Text"⟩, c) := rfl

theorem faultFields_assign0 (a b c v : XmlValue) :
    Fields.assign (faultFields a b c) 0 v = faultFields v b c := rfl

theorem faultFields_assign1 (a b c v : XmlValue) :
    Fields.assign (faultFields a b c) 1 v = faultFields a v c := rfl

theorem faultFields_assign2 (a b c v : XmlValue) :
    Fields.assign (faultFields a b c) 2 v = faultFields a b v := rfl

/-- Inside `Code>Subcode`: the element `Value` fills the field `Subcode`. -/
theorem pathLoop_Subcode (n : Nat) (a b c : XmlValue) (old : String) (hb : b = XmlValue.string old)
    (sub rest : List Char) (stk : List Name) (hs : sub.all plainChar = true) :
    pathLoop (n + 7) 1 (faultFields a b c) ["Code", "Subcode"]
        ⟨openTag "Value" ++ (sub ++ (closeTag "Value" ++ (closeTag "Subcode" ++ rest))),
          ⟨"", "Subcode"⟩ :: stk, none⟩ =
      (faultFields a (XmlValue.string (String.mk sub)) c, ⟨rest, stk, none⟩, none) := by
  subst hb
  have hd2 : (1 : Nat) + 1 < maxUnmarshalDepth := by decide
  rw [pathLoop, tok_start_Value]
  simp only []
  rw [unmarshalPath, matchField_Code_Subcode_Value]
  simp only [faultFields_get1]
  rw [unmarshal_Value_plain _ _ _ _ _ _ hd2 hs]
  simp only [faultFields_assign1]
  rw [pathLoop, tok_end_Subcode]

/-- Inside `Code`: `Value` fills the field `Code`, `Subcode>Value` the field
`Subcode`. -/
theorem pathLoop_Code (n : Nat) (c : XmlValue) (old1 old2 : String)
    (code sub rest : List Char) (stk : List Name)
    (hc : code.all plainChar = true) (hs : sub.all plainChar = true) :
    pathLoop (n + 12) 1 (faultFields (XmlValue.string old1) (XmlValue.string old2) c) ["Code"]
        ⟨openTag "Value" ++ (code ++ (closeTag "Value" ++ (openTag "Subcode" ++
          (openTag "Value" ++ (sub ++ (closeTag "Value" ++ (closeTag "Subcode" ++
          (closeTag "Code" ++ rest)))))))), ⟨"", "Code"⟩ :: stk, none⟩ =
      (faultFields (XmlValue.string (String.mk code)) (XmlValue.string (String.mk sub)) c,
        ⟨rest, stk, none⟩, none) := by
  have hd2 : (1 : Nat) + 1 < maxUnmarshalDepth := by decide
  rw [pathLoop, tok_start_Value]
  simp only []
  rw [unmarshalPath, matchField_Code_Value]
  simp only [faultFields_get0]
  rw [unmarshal_Value_plain _ _ _ _ _ _ hd2 hc]
  simp only [faultFields_assign0]
  rw [pathLoop, tok_start_Subcode]
  simp only []
  rw [unmarshalPath, matchField_Code_Subcode]
  simp only []
  rw [pathLoop_Subcode _ _ _ _ old2 rfl _ _ _ hs]
  simp only []
  rw [pathLoop, tok_end_Code]

/-- Inside `Reason`: `Text` fills the field `Reason`. -/
theorem pathLoop_Reason (n : Nat) (a b : XmlValue) (old : String)
    (reason rest : List Char) (stk : List Name) (hr : reason.all plainChar = true) :
    pathLoop (n + 7) 1 (faultFields a b (XmlValue.string old)) ["Reason"]
        ⟨openTag "Text" ++ (reason ++ (closeTag "Text" ++ (closeTag "Reason" ++ rest))),
          ⟨"", "Reason"⟩ :: stk, none⟩ =
      (faultFields a b (XmlValue.string (String.mk reason)), ⟨rest, stk, none⟩, none) := by
  have hd2 : (1 : Nat) + 1 < maxUnmarshalDepth := by decide
  rw [pathLoop, tok_start_Text]
  simp only []
  rw [unmarshalPath, matchField_Reason_Text]
  simp only [faultFields_get2]
  rw [unmarshal_Text_plain _ _ _ _ _ _ hd2 hr]
  simp only [faultFields_assign2]
  rw [pathLoop, tok_end_Reason]

/-- The decoder fills the struct `Fault` from the content of a `Fault` element. -/
theorem unmarshal_Fault (n : Nat) (old1 old2 old3 : String)
    (code sub reason rest : List Char) (stk : List Name)
    (hc : code.all plainChar = true) (hs : sub.all plainChar = true)
    (hr : reason.all plainChar = true) :
    unmarshal (n + 20) 1
        (XmlValue.struct (faultFields (XmlValue.string old1) (XmlValue.string old2)
          (XmlValue.string old3)))
        ⟨faultContent code sub reason rest, ⟨"", "Fault"⟩ :: stk, none⟩ =
      (XmlValue.struct (faultFields (XmlValue.string (String.mk code))
          (XmlValue.string (String.mk sub)) (XmlValue.string (String.mk reason))),
        ⟨rest, stk, none⟩, none) := by
  have hd1 : ¬ ((1 : Nat) ≥ maxUnmarshalDepth) := by decide
  unfold faultContent
  rw [unmarshal, if_neg hd1]
  simp only []
  rw [structLoop, tok_start_Code]
  simp only []
  rw [unmarshalPath, matchField_Code]
  simp only []
  rw [pathLoop_Code _ _ _ _ _ _ _ _ hc hs]
  simp only []
  rw [structLoop, tok_start_Reason]
  simp only []
  rw [unmarshalPath, matchField_Reason]
  simp only []
  rw [pathLoop_Reason _ _ _ _ _ _ _ hr]
  simp only []
  rw [structLoop, tok_end_Fault]

theorem matchField_envelope_Body (v : XmlValue) :
    matchField [] "Body" 0 (envelopeFields v) = PathMatch.descend ["Body"] := rfl

theorem matchField_envelope_Fault (v : XmlValue) :
    matchField ["Body"] "Fault" 0 (envelopeFields v) = PathMatch.perfect 0 := rfl

theorem envelopeFields_get0 (v : XmlValue) :
    (envelopeFields v).get? 0 = some (⟨"Fault", ["Body"], "Fault"⟩, v) := rfl

theorem envelopeFields_assign0 (v w : XmlValue) :
    Fields.assign (envelopeFields v) 0 w = envelopeFields w := rfl

theorem tok_end_Envelope_last (stk : List Name) :
    Decoder.Token ⟨closeTag "Envelope", ⟨"", "Envelope"⟩ :: stk, none⟩ =
      .ok (Token.EndElement ⟨"", "Envelope"⟩, ⟨[], stk, none⟩) := by
  rfl

/-- The decoder fills the struct `Envelope` from the body of a fault envelope. -/
theorem unmarshal_Envelope (n : Nat) (old1 old2 old3 : String)
    (code sub reason : List Char)
    (hc : code.all plainChar = true) (hs : sub.all plainChar = true)
    (hr : reason.all plainChar = true) :
    unmarshal (n + 30) 0
        (XmlValue.struct (envelopeFields (XmlValue.struct
          (faultFields (XmlValue.string old1) (XmlValue.string old2) (XmlValue.string old3)))))
        ⟨openTag "Body" ++ (openTag "Fault" ++
            faultContent code sub reason (closeTag "Body" ++ closeTag "Envelope")),
          [⟨"", "Envelope"⟩], none⟩ =
      (XmlValue.struct (envelopeFields (XmlValue.struct
          (faultFields (XmlValue.string (String.mk code)) (XmlValue.string (String.mk sub))
            (XmlValue.string (String.mk reason))))),
        ⟨[], [], none⟩, none) := by
  have hd0 : ¬ ((0 : Nat) ≥ maxUnmarshalDepth) := by decide
  rw [unmarshal, if_neg hd0]
  simp only []
  rw [structLoop, tok_start_Body]
  simp only []
  rw [unmarshalPath, matchField_envelope_Body]
  simp only []
  rw [pathLoop, tok_start_Fault]
  simp only []
  rw [unmarshalPath, matchField_envelope_Fault]
  simp only [envelopeFields_get0]
  rw [unmarshal_Fault _ _ _ _ _ _ _ _ _ hc hs hr]
  simp only [envelopeFields_assign0]
  rw [pathLoop, tok_end_Body]
  simp only []
  rw [structLoop, tok_end_Envelope_last]

theorem faultBodyChars_length (code sub reason : List Char) :
    24 ≤ 8 * (faultBodyChars code sub reason).length := by
  simp only [faultBodyChars, openTag, List.length_append, List.length_cons]
  omega

/-- The decoder model extracts the three texts of a fault envelope: for plain
texts `code`, `subcode` and `reason`, `xml.Unmarshal` of the body built from them
into the `Envelope` of the source succeeds and stores exactly these texts. -/
theorem xmlUnmarshal_faultBody (code sub reason : String) (e : Envelope)
    (hc : plainText code = true) (hs : plainText sub = true) (hr : plainText reason = true) :
    xmlUnmarshal (faultBody code sub reason)
        (XmlValue.struct (envelopeFields (XmlValue.struct
          (faultFields (XmlValue.string e.Fault.Code) (XmlValue.string e.Fault.Subcode)
            (XmlValue.string e.Fault.Reason))))) =
      (XmlValue.struct (envelopeFields (XmlValue.struct
          (faultFields (XmlValue.string code) (XmlValue.string sub) (XmlValue.string reason)))),
        none) := by
  obtain ⟨k, hk⟩ : ∃ k, 8 * (faultBodyChars code.data sub.data reason.data).length + 16 = k + 40 :=
    ⟨8 * (faultBodyChars code.data sub.data reason.data).length + 16 - 40,
      by have := faultBodyChars_length code.data sub.data reason.data; omega⟩
  have hdata : (faultBody code sub reason).data = faultBodyChars code.data sub.data reason.data :=
    rfl
  unfold xmlUnmarshal
  simp only [hdata, hk]
  unfold faultBodyChars
  rw [findStart, tok_start_Envelope]
  simp only []
  rw [unmarshal_Envelope (k + 10) _ _ _ _ _ _ hc hs hr]

/-- The fault envelope built from the three texts of scenario B, written out. -/
theorem faultBody_example :
    faultBody "s:Sender" "ter:NotAuthorized" "Invalid username or password!" =
      "<Envelope><Body><Fault><Code><Value>s:Sender</Value><Subcode><Value>ter:NotAuthorized</Value></Subcode></Code><Reason><Text>Invalid username or password!</Text></Reason></Fault></Body></Envelope>" := by
  decide!

/-- For plain texts the fault parse of the fault envelope built from them
succeeds and the decoded `Fault` holds exactly these texts, with the status
code of the response. -/
theorem faultBody_decoded (status : Int) (code sub reason : String)
    (hc : plainText code = true) (hs : plainText sub = true) (hr : plainText reason = true) :
    faultParseError xmlUnmarshal (response status (faultBody code sub reason)) = none ∧
      (decodedEnvelope xmlUnmarshal (response status (faultBody code sub reason))).Fault =
        ⟨status, code, sub, reason⟩ := by
  have hrefl : (initialEnvelope (response status (faultBody code sub reason))).reflect =
      XmlValue.struct (envelopeFields (XmlValue.struct
        (faultFields (XmlValue.string "") (XmlValue.string "") (XmlValue.string "")))) := rfl
  have h := xmlUnmarshal_faultBody code sub reason ⟨⟨0, "", "", ""⟩⟩ hc hs hr
  have hdata : (response status (faultBody code sub reason)).Body.data =
      faultBody code sub reason := rfl
  constructor
  · simp only [faultParseError, hrefl, hdata]
    rw [h]
  · simp only [decodedEnvelope, hrefl, hdata]
    rw [h]
    rfl

/-! ## Evaluation of the decoder on the bodies of the scenarios -/

theorem response_data (status : Int) (body : String) :
    (response status body).Body.data = body := rfl

/-- The error of the fault parse depends on the body only. -/
theorem faultParseError_status (xml : Unmarshaler) (status : Int) (body : String) :
    faultParseError xml (response status body) = faultParseError xml (response 0 body) := rfl

/-- The decoder reports `io.EOF` for the empty body: it finds no start element. -/
theorem emptyBody_faultParseError (status : Int) :
    faultParseError xmlUnmarshal (response status "") = some GoError.eof := by
  have h : faultParseError xmlUnmarshal (response 0 "") = some GoError.eof := by
    decide!
  rw [faultParseError_status, h]

/-- The fault parse of the body of scenario A succeeds. -/
theorem bodyA_faultParseError (status : Int) :
    faultParseError xmlUnmarshal (response status bodyA) = none := by
  have h : faultParseError xmlUnmarshal (response 0 bodyA) = none := by
    decide!
  rw [faultParseError_status, h]

/-- The fault parse of the body of scenario A finds no `Code`. -/
theorem bodyA_Code (status : Int) :
    (decodedEnvelope xmlUnmarshal (response status bodyA)).Fault.Code = "" := by
  have h : (decodedEnvelope xmlUnmarshal (response 0 bodyA)).Fault.Code = "" := by
    decide!
  rw [decodedEnvelope_fields]
  exact h

/-- The fault parse of the body of scenario B succeeds. -/
theorem bodyB_faultParseError (status : Int) :
    faultParseError xmlUnmarshal (response status bodyB) = none := by
  have h : faultParseError xmlUnmarshal (response 0 bodyB) = none := by
    decide!
  rw [faultParseError_status, h]

/-- The fault parse of the body of scenario B extracts the three texts. -/
theorem bodyB_decodedEnvelope (status : Int) :
    (decodedEnvelope xmlUnmarshal (response status bodyB)).Fault =
      ⟨status, "s:Sender", "ter:NotAuthorized", "Invalid username or password!"⟩ := by
  have h : (decodedEnvelope xmlUnmarshal (response 0 bodyB)).Fault =
      ⟨0, "s:Sender", "ter:NotAuthorized", "Invalid username or password!"⟩ := by
    decide!
  rw [decodedEnvelope_fields, h]

/-- The fault parse of a body with an unclosed tag fails. -/
theorem unclosed_faultParseError (status : Int) :
    faultParseError xmlUnmarshal (response status "<Envelope><Body>") =
      some (GoError.syntaxError "unexpected EOF") := by
  have h : faultParseError xmlUnmarshal (response 0 "<Envelope><Body>") =
      some (GoError.syntaxError "unexpected EOF") := by
    decide!
  rw [faultParseError_status, h]

/-- The fault parse of a body that is one empty element succeeds and finds no `Code`. -/
theorem emptyElement_faultParse (status : Int) :
    faultParseError xmlUnmarshal (response status "<Envelope/>") = none ∧
      (decodedEnvelope xmlUnmarshal (response status "<Envelope/>")).Fault =
        ⟨status, "", "", ""⟩ := by
  have h : faultParseError xmlUnmarshal (response 0 "<Envelope/>") = none := by
    decide!
  have h2 : (decodedEnvelope xmlUnmarshal (response 0 "<Envelope/>")).Fault =
      ⟨0, "", "", ""⟩ := by
    decide!
  refine ⟨?_, ?_⟩
  · rw [faultParseError_status, h]
  · rw [decodedEnvelope_fields, h2]

/-- A quoted attribute value may hold `]]>`, and a name may hold letters outside
ASCII: the decoder accepts both bodies. -/
theorem attribute_and_name_accepted :
    faultParseError xmlUnmarshal (response 200 "<a b=\"]]>\"/>") = none ∧
      faultParseError xmlUnmarshal (response 200 "<é/>") = none ∧
      faultParseError xmlUnmarshal (response 200 "<a>]]></a>") =
        some (GoError.syntaxError "unescaped ]]> not in CDATA section") := by
  decide!

/-! ## The claims -/

/-- C1, counterexample. A response with status 401 and an empty body, read
without error: `ReadAndParse` returns the `io.EOF` of the decoder under the
annotation `decode fault info`, which is no `Fault` value. -/
theorem emptyBody_401_returns_no_Fault :
    (ReadAndParse xmlUnmarshal (response 401 "") (resultStruct 0) "GetProfiles").err =
        some (GoError.annotated GoError.eof "decode fault info") ∧
      ¬ ∃ f : Fault,
        (ReadAndParse xmlUnmarshal (response 401 "") (resultStruct 0) "GetProfiles").err =
          some (GoError.fault f) := by
  have h : (ReadAndParse xmlUnmarshal (response 401 "") (resultStruct 0) "GetProfiles").err =
      some (GoError.annotated GoError.eof "decode fault info") := by
    rw [ReadAndParse_faultParseError xmlUnmarshal (response 401 "") (resultStruct 0)
      "GetProfiles" GoError.eof rfl (emptyBody_faultParseError 401)]
  refine ⟨h, ?_⟩
  rintro ⟨f, hf⟩
  rw [h] at hf
  cases hf

/-- C1, as amended. For every response whose status code is not 200 and whose
body is read without error: when the body parses as a fault envelope (a body
with no fault `Code` included), `ReadAndParse` returns a `Fault` whose
`StatusCode` is the status code of the response; when the parse fails with an
error, `ReadAndParse` returns that error under the annotation
`decode fault info`. The second case is the one of the empty body, for which
the decoder reports `io.EOF`; the first is the one of a body that is a single
empty element, where the `Fault` has an empty `Code`. -/
theorem ReadAndParse_status_not_200 (xml : Unmarshaler) (httpReply : Response)
    (reply : XmlValue) (tag : String)
    (hread : httpReply.Body.err = none) (hstatus : httpReply.StatusCode ≠ 200) :
    (faultParseError xml httpReply = none →
        ∃ f : Fault, (ReadAndParse xml httpReply reply tag).err = some (GoError.fault f) ∧
          f.StatusCode = httpReply.StatusCode) ∧
      (∀ e, faultParseError xml httpReply = some e →
        (ReadAndParse xml httpReply reply tag).err =
          some (GoError.annotated e "decode fault info")) ∧
      (ReadAndParse xmlUnmarshal (response 401 "") reply tag).err =
        some (GoError.annotated GoError.eof "decode fault info") ∧
      (ReadAndParse xmlUnmarshal (response 401 "<Envelope/>") reply tag).err =
        some (GoError.fault ⟨401, "", "", ""⟩) := by
  refine ⟨?_, ?_, ?_, ?_⟩
  · intro hparse
    refine ⟨(decodedEnvelope xml httpReply).Fault, ?_, decodedEnvelope_StatusCode xml httpReply⟩
    rw [ReadAndParse_fault xml httpReply reply tag hread hparse (Or.inl hstatus)]
  · intro e hparse
    rw [ReadAndParse_faultParseError xml httpReply reply tag e hread hparse]
  · rw [ReadAndParse_faultParseError xmlUnmarshal (response 401 "") reply tag GoError.eof rfl
      (emptyBody_faultParseError 401)]
  · rw [ReadAndParse_fault xmlUnmarshal (response 401 "<Envelope/>") reply tag rfl
      (emptyElement_faultParse 401).1 (Or.inl (by decide)), (emptyElement_faultParse 401).2]

/-- Witness of C1 as amended: status 500 and the body of scenario B. -/
theorem ReadAndParse_status_not_200_witness :
    ∃ f : Fault, (ReadAndParse xmlUnmarshal (response 500 bodyB) (resultStruct 0) "GetProfiles").err
        = some (GoError.fault f) ∧ f.StatusCode = 500 :=
  (ReadAndParse_status_not_200 xmlUnmarshal (response 500 bodyB) (resultStruct 0) "GetProfiles"
    rfl (by decide)).1 (bodyB_faultParseError 500)

/-- After a body read without error the body is closed exactly once, on each of
the four paths that remain. -/
theorem ReadAndParse_closes_after_read (xml : Unmarshaler) (httpReply : Response)
    (reply : XmlValue) (tag : String) (hread : httpReply.Body.err = none) :
    (ReadAndParse xml httpReply reply tag).trace.count Effect.close = 1 := by
  cases hparse : faultParseError xml httpReply with
  | some e =>
    rw [ReadAndParse_faultParseError xml httpReply reply tag e hread hparse]
    simp
  | none =>
    by_cases hfault : httpReply.StatusCode ≠ 200 ∨ (decodedEnvelope xml httpReply).Fault.Code ≠ ""
    · rw [ReadAndParse_fault xml httpReply reply tag hread hparse hfault]
      simp
    · have hstatus : httpReply.StatusCode = 200 := by
        by_contra h
        exact hfault (Or.inl h)
      have hcode : (decodedEnvelope xml httpReply).Fault.Code = "" := by
        by_contra h
        exact hfault (Or.inr h)
      rw [ReadAndParse_decode xml httpReply reply tag hread hparse hstatus hcode]
      simp

/-- After a body read that fails the body is not closed at all. -/
theorem ReadAndParse_no_close_after_read_error (xml : Unmarshaler) (httpReply : Response)
    (reply : XmlValue) (tag : String) (e : GoError) (hread : httpReply.Body.err = some e) :
    (ReadAndParse xml httpReply reply tag).trace.count Effect.close = 0 := by
  rw [ReadAndParse_readError xml httpReply reply tag e hread]
  simp

/-- C2, at the failing input. For a response whose body cannot be read (here
the stream breaks with `unexpected EOF` after no byte), `ReadAndParse` returns
the annotated read error and has not closed the body: the trace of the call
holds no `close`. -/
theorem readError_body_not_closed :
    (ReadAndParse xmlUnmarshal ⟨"200 OK", 200, ⟨"", some (GoError.plain "unexpected EOF")⟩⟩
        (resultStruct 0) "GetProfiles").trace.count Effect.close = 0 ∧
      (ReadAndParse xmlUnmarshal ⟨"200 OK", 200, ⟨"", some (GoError.plain "unexpected EOF")⟩⟩
        (resultStruct 0) "GetProfiles").err =
        some (GoError.annotated (GoError.plain "unexpected EOF") "read") := by
  rw [ReadAndParse_readError xmlUnmarshal _ (resultStruct 0) "GetProfiles"
    (GoError.plain "unexpected EOF") rfl]
  exact ⟨by decide, rfl⟩

/-- C3. For every `Fault` value `f`, `f.Error()` is `http-status: `, the decimal
form of `f.StatusCode`, `, code: `, `f.Code`, `/`, `f.Subcode`, `, detail: ` and
`f.Reason`, in this order; and for the response of scenario B with status 500
the error that `ReadAndParse` returns is a `Fault` that renders as
`http-status: 500, code: s:Sender/ter:NotAuthorized, detail: Invalid username or password!`. -/
theorem Fault_Error_format :
    (∀ f : Fault, f.Error = "http-status: " ++ toString f.StatusCode ++ ", code: " ++ f.Code ++
        "/" ++ f.Subcode ++ ", detail: " ++ f.Reason) ∧
      ∀ (reply : XmlValue) (tag : String),
        ∃ f : Fault, (ReadAndParse xmlUnmarshal (response 500 bodyB) reply tag).err =
            some (GoError.fault f) ∧
          f.Error =
            "http-status: 500, code: s:Sender/ter:NotAuthorized, detail: Invalid username or password!" := by
  constructor
  · intro f
    have hd : formatDecimal f.StatusCode = toString f.StatusCode := by
      cases f.StatusCode <;> rfl
    rw [← hd]
    apply String.ext
    simp [Fault.Error, Sprintf, sprintfChars, String.data_append]
  · intro reply tag
    refine ⟨⟨500, "s:Sender", "ter:NotAuthorized", "Invalid username or password!"⟩, ?_, ?_⟩
    · rw [ReadAndParse_fault xmlUnmarshal (response 500 bodyB) reply tag rfl
        (bodyB_faultParseError 500) (Or.inl (by decide)), bodyB_decodedEnvelope]
    · decide

/-- C4. For every response whose body is read without error and parses as an
envelope whose fault `Code` is not empty, `ReadAndParse` returns as its error
the `Fault` of the decoded envelope: its `Code`, `Subcode` and `Reason` are the
texts that the decoder has stored for the paths `Body>Fault>Code>Value`,
`Body>Fault>Code>Subcode>Value` and `Body>Fault>Reason>Text`, its `StatusCode`
is the status code of the response, and the three texts are the same for every
status code that the response could carry, 200 included. This holds for every
behaviour of the decoder: the field `StatusCode` is not among the fields that
it can reach. With the decoder model, a fault envelope built from plain texts
`code`, `subcode` and `reason`, `code` not empty, gives the `Fault` with exactly
these texts and the status code of the response. -/
theorem ReadAndParse_fault_code (xml : Unmarshaler) (httpReply : Response)
    (reply : XmlValue) (tag : String)
    (hread : httpReply.Body.err = none) (hparse : faultParseError xml httpReply = none)
    (hcode : (decodedEnvelope xml httpReply).Fault.Code ≠ "") :
    (ReadAndParse xml httpReply reply tag).err =
        some (GoError.fault (decodedEnvelope xml httpReply).Fault) ∧
      (decodedEnvelope xml httpReply).Fault.StatusCode = httpReply.StatusCode ∧
      (∀ status : Int,
        (decodedEnvelope xml { httpReply with StatusCode := status }).Fault.Code =
            (decodedEnvelope xml httpReply).Fault.Code ∧
          (decodedEnvelope xml { httpReply with StatusCode := status }).Fault.Subcode =
            (decodedEnvelope xml httpReply).Fault.Subcode ∧
          (decodedEnvelope xml { httpReply with StatusCode := status }).Fault.Reason =
            (decodedEnvelope xml httpReply).Fault.Reason) ∧
      (initialEnvelope httpReply).reflect =
        XmlValue.struct [(⟨"Fault", ["Body"], "Fault"⟩,
          XmlValue.struct [
            (⟨"Code", ["Code"], "Value"⟩, XmlValue.string ""),
            (⟨"Subcode", ["Code", "Subcode"], "Value"⟩, XmlValue.string ""),
            (⟨"Reason", ["Reason"], "Text"⟩, XmlValue.string "")])] ∧
      (∀ (status : Int) (code subcode reason : String),
        plainText code = true → plainText subcode = true → plainText reason = true →
        code ≠ "" →
        (ReadAndParse xmlUnmarshal (response status (faultBody code subcode reason)) reply tag).err =
          some (GoError.fault ⟨status, code, subcode, reason⟩)) := by
  refine ⟨?_, decodedEnvelope_StatusCode xml httpReply, ?_, rfl, ?_⟩
  · rw [ReadAndParse_fault xml httpReply reply tag hread hparse (Or.inr hcode)]
  · intro status
    exact decodedEnvelope_texts xml _ httpReply rfl
  · intro status code subcode reason hc hs hr hne
    have hd := faultBody_decoded status code subcode reason hc hs hr
    rw [ReadAndParse_fault xmlUnmarshal _ reply tag rfl hd.1 (Or.inr (by rw [hd.2]; exact hne)),
      hd.2]

/-- Witness of C4: status 200 and the body of scenario B. -/
theorem ReadAndParse_fault_code_witness :
    (ReadAndParse xmlUnmarshal (response 200 bodyB) (resultStruct 0) "GetProfiles").err =
      some (GoError.fault
        ⟨200, "s:Sender", "ter:NotAuthorized", "Invalid username or password!"⟩) := by
  have h := (ReadAndParse_fault_code xmlUnmarshal (response 200 bodyB) (resultStruct 0)
    "GetProfiles" rfl (bodyB_faultParseError 200)
    (by rw [bodyB_decodedEnvelope]; decide)).1
  rw [bodyB_decodedEnvelope 200] at h
  exact h

/-- C5. For every response whose body is read without error and on which the
fault parse fails with an error `e`, whatever the status code, `ReadAndParse`
returns `e` under the annotation `decode fault info`, does not run the parse
into the destination, and leaves the destination as it was. -/
theorem ReadAndParse_fault_parse_fails (xml : Unmarshaler) (httpReply : Response)
    (reply : XmlValue) (tag : String) (e : GoError)
    (hread : httpReply.Body.err = none) (hparse : faultParseError xml httpReply = some e) :
    (ReadAndParse xml httpReply reply tag).err =
        some (GoError.annotated e "decode fault info") ∧
      Effect.unmarshalReply ∉ (ReadAndParse xml httpReply reply tag).trace ∧
      (ReadAndParse xml httpReply reply tag).reply = reply := by
  rw [ReadAndParse_faultParseError xml httpReply reply tag e hread hparse]
  exact ⟨rfl, by simp, rfl⟩

/-- Witness of C5: scenario D, status 200 and a body with an unclosed tag. -/
theorem ReadAndParse_fault_parse_fails_witness :
    (ReadAndParse xmlUnmarshal (response 200 "<Envelope><Body>") (resultStruct 7)
        "GetProfiles").err =
        some (GoError.annotated (GoError.syntaxError "unexpected EOF") "decode fault info") ∧
      Effect.unmarshalReply ∉ (ReadAndParse xmlUnmarshal (response 200 "<Envelope><Body>")
        (resultStruct 7) "GetProfiles").trace ∧
      (ReadAndParse xmlUnmarshal (response 200 "<Envelope><Body>") (resultStruct 7)
        "GetProfiles").reply = resultStruct 7 :=
  ReadAndParse_fault_parse_fails xmlUnmarshal (response 200 "<Envelope><Body>") (resultStruct 7)
    "GetProfiles" (GoError.syntaxError "unexpected EOF") rfl (unclosed_faultParseError 200)

/-- C6. For every response whose body read fails with an error `e`,
`ReadAndParse` returns `e` under the annotation `read` and runs neither the
fault parse nor the parse into the destination, which stays as it was. -/
theorem ReadAndParse_read_fails (xml : Unmarshaler) (httpReply : Response)
    (reply : XmlValue) (tag : String) (e : GoError)
    (hread : httpReply.Body.err = some e) :
    (ReadAndParse xml httpReply reply tag).err = some (GoError.annotated e "read") ∧
      Effect.unmarshalFault ∉ (ReadAndParse xml httpReply reply tag).trace ∧
      Effect.unmarshalReply ∉ (ReadAndParse xml httpReply reply tag).trace ∧
      (ReadAndParse xml httpReply reply tag).reply = reply := by
  rw [ReadAndParse_readError xml httpReply reply tag e hread]
  exact ⟨rfl, by simp, by simp, rfl⟩

/-- Witness of C6: a body stream that breaks after a part of the body of
scenario A. -/
theorem ReadAndParse_read_fails_witness :
    (ReadAndParse xmlUnmarshal ⟨"200 OK", 200, ⟨"<Envelope><Bo", some (GoError.plain "reset")⟩⟩
        (resultStruct 7) "GetProfiles").err =
        some (GoError.annotated (GoError.plain "reset") "read") ∧
      Effect.unmarshalFault ∉ (ReadAndParse xmlUnmarshal
        ⟨"200 OK", 200, ⟨"<Envelope><Bo", some (GoError.plain "reset")⟩⟩
        (resultStruct 7) "GetProfiles").trace ∧
      Effect.unmarshalReply ∉ (ReadAndParse xmlUnmarshal
        ⟨"200 OK", 200, ⟨"<Envelope><Bo", some (GoError.plain "reset")⟩⟩
        (resultStruct 7) "GetProfiles").trace ∧
      (ReadAndParse xmlUnmarshal ⟨"200 OK", 200, ⟨"<Envelope><Bo", some (GoError.plain "reset")⟩⟩
        (resultStruct 7) "GetProfiles").reply = resultStruct 7 :=
  ReadAndParse_read_fails xmlUnmarshal
    ⟨"200 OK", 200, ⟨"<Envelope><Bo", some (GoError.plain "reset")⟩⟩ (resultStruct 7)
    "GetProfiles" (GoError.plain "reset") rfl

/-- The error of `ReadAndParse` is a `Fault` on the fault path only. -/
theorem ReadAndParse_cases (xml : Unmarshaler) (httpReply : Response)
    (reply : XmlValue) (tag : String) :
    (∃ e m, (ReadAndParse xml httpReply reply tag).err = some (GoError.annotated e m)) ∨
      ((ReadAndParse xml httpReply reply tag).err = none ∧
        httpReply.Body.err = none ∧ faultParseError xml httpReply = none ∧
        httpReply.StatusCode = 200 ∧ (decodedEnvelope xml httpReply).Fault.Code = "") ∨
      (ReadAndParse xml httpReply reply tag =
          ⟨some (GoError.fault (decodedEnvelope xml httpReply).Fault), reply,
            [Effect.log httpReply.Status httpReply.StatusCode tag, Effect.read, Effect.close,
              Effect.unmarshalFault]⟩ ∧
        httpReply.Body.err = none ∧ faultParseError xml httpReply = none ∧
        (httpReply.StatusCode ≠ 200 ∨ (decodedEnvelope xml httpReply).Fault.Code ≠ "")) := by
  cases hread : httpReply.Body.err with
  | some e =>
    left
    exact ⟨e, "read", by rw [ReadAndParse_readError xml httpReply reply tag e hread]⟩
  | none =>
    cases hparse : faultParseError xml httpReply with
    | some e =>
      left
      exact ⟨e, "decode fault info",
        by rw [ReadAndParse_faultParseError xml httpReply reply tag e hread hparse]⟩
    | none =>
      by_cases hfault : httpReply.StatusCode ≠ 200 ∨ (decodedEnvelope xml httpReply).Fault.Code ≠ ""
      · right; right
        exact ⟨ReadAndParse_fault xml httpReply reply tag hread hparse hfault, rfl, rfl, hfault⟩
      · have hstatus : httpReply.StatusCode = 200 := by
          by_contra h
          exact hfault (Or.inl h)
        have hcode : (decodedEnvelope xml httpReply).Fault.Code = "" := by
          by_contra h
          exact hfault (Or.inr h)
        have h := ReadAndParse_decode xml httpReply reply tag hread hparse hstatus hcode
        cases herr : (xml httpReply.Body.data reply).2 with
        | none =>
          right; left
          refine ⟨?_, rfl, rfl, hstatus, hcode⟩
          rw [h, herr]
          rfl
        | some e =>
          left
          refine ⟨e, "decode", ?_⟩
          rw [h, herr]
          rfl

/-- C7. Whenever `ReadAndParse` returns a `Fault` as its error, the parse into
the destination has not run and the destination after the call is the one
before the call. -/
theorem ReadAndParse_fault_keeps_reply (xml : Unmarshaler) (httpReply : Response)
    (reply : XmlValue) (tag : String) (f : Fault)
    (hfault : (ReadAndParse xml httpReply reply tag).err = some (GoError.fault f)) :
    (ReadAndParse xml httpReply reply tag).reply = reply ∧
      Effect.unmarshalReply ∉ (ReadAndParse xml httpReply reply tag).trace := by
  rcases ReadAndParse_cases xml httpReply reply tag with ⟨e, m, h⟩ | ⟨h, _⟩ | ⟨h, _⟩
  · rw [h] at hfault
    cases hfault
  · rw [h] at hfault
    cases hfault
  · rw [h]
    exact ⟨rfl, by simp⟩

/-- Witness of C7: scenario B with a destination that holds 7. -/
theorem ReadAndParse_fault_keeps_reply_witness :
    (ReadAndParse xmlUnmarshal (response 500 bodyB) (resultStruct 7) "GetProfiles").reply =
        resultStruct 7 ∧
      Effect.unmarshalReply ∉
        (ReadAndParse xmlUnmarshal (response 500 bodyB) (resultStruct 7) "GetProfiles").trace :=
  ReadAndParse_fault_keeps_reply xmlUnmarshal (response 500 bodyB) (resultStruct 7) "GetProfiles"
    ⟨500, "s:Sender", "ter:NotAuthorized", "Invalid username or password!"⟩
    (by rw [ReadAndParse_fault xmlUnmarshal (response 500 bodyB) (resultStruct 7) "GetProfiles"
        rfl (bodyB_faultParseError 500) (Or.inl (by decide)), bodyB_decodedEnvelope])

/-- The parse of the body of scenario A into a destination with the field
`Result` succeeds and stores 42. -/
theorem bodyA_reply :
    (xmlUnmarshal bodyA (resultStruct 0)).2 = none ∧
      getResult (xmlUnmarshal bodyA (resultStruct 0)).1 = some 42 := by
  decide!

/-- The parse of a body whose `Result` is no number fails on the conversion. -/
theorem badResult_reply :
    faultParseError xmlUnmarshal
        (response 200 "<Envelope><Body><Result>abc</Result></Body></Envelope>") = none ∧
      (decodedEnvelope xmlUnmarshal
        (response 200 "<Envelope><Body><Result>abc</Result></Body></Envelope>")).Fault.Code = "" ∧
      (xmlUnmarshal "<Envelope><Body><Result>abc</Result></Body></Envelope>" (resultStruct 0)).2 =
        some (GoError.numError "abc" "invalid syntax") := by
  decide!

/-- The parse of the body of scenario A into a destination `struct { Result int }`
without a tag succeeds and leaves `Result` at 0: the element `Result` is not
directly under the root. -/
theorem bodyA_untagged_reply :
    (xmlUnmarshal bodyA (untaggedResultStruct 0)).2 = none ∧
      getResult (xmlUnmarshal bodyA (untaggedResultStruct 0)).1 = some 0 := by
  decide!

/-- The parse of the body of scenario A into a destination with a field `Body`
that holds the field `Result` succeeds and stores 42. -/
theorem bodyA_nested_reply :
    (xmlUnmarshal bodyA (nestedResultStruct 0)).2 = none ∧
      getNestedResult (xmlUnmarshal bodyA (nestedResultStruct 0)).1 = some 42 := by
  decide!

/-- C8, counterexample. Status 200, the body of scenario A and the destination
`struct { Result int }` without a tag: the body is read, the fault parse
succeeds with an empty `Code`, the parse into the destination succeeds and
`ReadAndParse` returns `nil`, yet the `Result` of the destination is 0 and
not 42. -/
theorem untagged_Result_is_not_42 :
    (response 200 bodyA).Body.err = none ∧
      faultParseError xmlUnmarshal (response 200 bodyA) = none ∧
      (decodedEnvelope xmlUnmarshal (response 200 bodyA)).Fault.Code = "" ∧
      (xmlUnmarshal bodyA (untaggedResultStruct 0)).2 = none ∧
      (ReadAndParse xmlUnmarshal (response 200 bodyA) (untaggedResultStruct 0)
        "GetProfiles").err = none ∧
      getResult (ReadAndParse xmlUnmarshal (response 200 bodyA) (untaggedResultStruct 0)
        "GetProfiles").reply = some 0 ∧
      getResult (ReadAndParse xmlUnmarshal (response 200 bodyA) (untaggedResultStruct 0)
        "GetProfiles").reply ≠ some 42 := by
  have hrun := ReadAndParse_decode xmlUnmarshal (response 200 bodyA) (untaggedResultStruct 0)
    "GetProfiles" rfl (bodyA_faultParseError 200) rfl (bodyA_Code 200)
  have hU := bodyA_untagged_reply
  have hd : (response 200 bodyA).Body.data = bodyA := rfl
  simp only [hd] at hrun
  have herr : (ReadAndParse xmlUnmarshal (response 200 bodyA) (untaggedResultStruct 0)
      "GetProfiles").err = none := by
    rw [hrun, hU.1]
    rfl
  have hres : getResult (ReadAndParse xmlUnmarshal (response 200 bodyA) (untaggedResultStruct 0)
      "GetProfiles").reply = some 0 := by
    rw [hrun]
    exact hU.2
  refine ⟨rfl, bodyA_faultParseError 200, bodyA_Code 200, hU.1, herr, hres, ?_⟩
  rw [hres]
  decide

/-- C8, as amended. For every response with status 200 whose body is read
without error, on which the fault parse succeeds with an empty `Code` and the
parse into the destination succeeds, `ReadAndParse` returns `nil` and the
destination holds what the decoder made of the same body. With status 200 and
the body of scenario A, a destination whose field `Result` is bound to the
element `Body>Result`, by its tag or as a field of a field `Body`, ends with
`Result` 42; a destination `struct { Result int }` without a tag is parsed
without error and keeps `Result` 0. -/
theorem ReadAndParse_success (xml : Unmarshaler) (httpReply : Response)
    (reply : XmlValue) (tag : String)
    (hread : httpReply.Body.err = none) (hstatus : httpReply.StatusCode = 200)
    (hparse : faultParseError xml httpReply = none)
    (hcode : (decodedEnvelope xml httpReply).Fault.Code = "")
    (hreply : (xml httpReply.Body.data reply).2 = none) :
    (ReadAndParse xml httpReply reply tag).err = none ∧
      (ReadAndParse xml httpReply reply tag).reply = (xml httpReply.Body.data reply).1 ∧
      ∀ tag1 : String,
        ((ReadAndParse xmlUnmarshal (response 200 bodyA) (resultStruct 0) tag1).err = none ∧
          getResult (ReadAndParse xmlUnmarshal (response 200 bodyA) (resultStruct 0) tag1).reply =
            some 42) ∧
        ((ReadAndParse xmlUnmarshal (response 200 bodyA) (nestedResultStruct 0) tag1).err = none ∧
          getNestedResult
            (ReadAndParse xmlUnmarshal (response 200 bodyA) (nestedResultStruct 0) tag1).reply =
            some 42) ∧
        ((ReadAndParse xmlUnmarshal (response 200 bodyA) (untaggedResultStruct 0) tag1).err =
            none ∧
          getResult
            (ReadAndParse xmlUnmarshal (response 200 bodyA) (untaggedResultStruct 0) tag1).reply =
            some 0) := by
  have hd : (response 200 bodyA).Body.data = bodyA := rfl
  refine ⟨?_, ?_, ?_⟩
  · rw [ReadAndParse_decode xml httpReply reply tag hread hparse hstatus hcode, hreply]
    rfl
  · rw [ReadAndParse_decode xml httpReply reply tag hread hparse hstatus hcode]
  · intro tag1
    refine ⟨?_, ?_, ?_⟩
    · rw [ReadAndParse_decode xmlUnmarshal (response 200 bodyA) (resultStruct 0) tag1 rfl
        (bodyA_faultParseError 200) rfl (bodyA_Code 200)]
      have hA := bodyA_reply
      simp only [hd]
      rw [hA.1]
      exact ⟨rfl, hA.2⟩
    · rw [ReadAndParse_decode xmlUnmarshal (response 200 bodyA) (nestedResultStruct 0) tag1 rfl
        (bodyA_faultParseError 200) rfl (bodyA_Code 200)]
      have hA := bodyA_nested_reply
      simp only [hd]
      rw [hA.1]
      exact ⟨rfl, hA.2⟩
    · rw [ReadAndParse_decode xmlUnmarshal (response 200 bodyA) (untaggedResultStruct 0) tag1 rfl
        (bodyA_faultParseError 200) rfl (bodyA_Code 200)]
      have hA := bodyA_untagged_reply
      simp only [hd]
      rw [hA.1]
      exact ⟨rfl, hA.2⟩

/-- Witness of C8 as amended: scenario A with the destination bound to
`Body>Result`. -/
theorem ReadAndParse_success_witness :
    (ReadAndParse xmlUnmarshal (response 200 bodyA) (resultStruct 0) "GetProfiles").err = none :=
  (ReadAndParse_success xmlUnmarshal (response 200 bodyA) (resultStruct 0) "GetProfiles"
    rfl rfl (bodyA_faultParseError 200) (bodyA_Code 200) bodyA_reply.1).1

/-- C9. For every response with status 200 whose body is read without error
and on which the fault parse succeeds with an empty `Code`, if the parse into
the destination fails with an error `e`, then `ReadAndParse` returns `e` under
the annotation `decode`, an error that is no `Fault`. -/
theorem ReadAndParse_reply_parse_fails (xml : Unmarshaler) (httpReply : Response)
    (reply : XmlValue) (tag : String) (e : GoError)
    (hread : httpReply.Body.err = none) (hstatus : httpReply.StatusCode = 200)
    (hparse : faultParseError xml httpReply = none)
    (hcode : (decodedEnvelope xml httpReply).Fault.Code = "")
    (hreply : (xml httpReply.Body.data reply).2 = some e) :
    (ReadAndParse xml httpReply reply tag).err = some (GoError.annotated e "decode") ∧
      (GoError.annotated e "decode").isFault = false := by
  rw [ReadAndParse_decode xml httpReply reply tag hread hparse hstatus hcode, hreply]
  exact ⟨rfl, rfl⟩

/-- Witness of C9: a body whose `Result` is no number. -/
theorem ReadAndParse_reply_parse_fails_witness :
    (ReadAndParse xmlUnmarshal
        (response 200 "<Envelope><Body><Result>abc</Result></Body></Envelope>")
        (resultStruct 0) "GetProfiles").err =
        some (GoError.annotated (GoError.numError "abc" "invalid syntax") "decode") ∧
      (GoError.annotated (GoError.numError "abc" "invalid syntax") "decode").isFault = false :=
  ReadAndParse_reply_parse_fails xmlUnmarshal
    (response 200 "<Envelope><Body><Result>abc</Result></Body></Envelope>")
    (resultStruct 0) "GetProfiles" (GoError.numError "abc" "invalid syntax")
    rfl rfl badResult_reply.1 badResult_reply.2.1 badResult_reply.2.2

/-- C10. For every response whose body is read without error and on which the
fault parse succeeds: `ReadAndParse` returns a `Fault` exactly when the status
code is not 200 or the extracted `Code` is not empty; no `Fault` it returns has
both `StatusCode` 200 and an empty `Code`; and the parse into the destination
runs exactly when the status code is 200 and the `Code` is empty. -/
theorem ReadAndParse_fault_iff (xml : Unmarshaler) (httpReply : Response)
    (reply : XmlValue) (tag : String)
    (hread : httpReply.Body.err = none) (hparse : faultParseError xml httpReply = none) :
    ((∃ f : Fault, (ReadAndParse xml httpReply reply tag).err = some (GoError.fault f)) ↔
        (httpReply.StatusCode ≠ 200 ∨ (decodedEnvelope xml httpReply).Fault.Code ≠ "")) ∧
      (∀ f : Fault, (ReadAndParse xml httpReply reply tag).err = some (GoError.fault f) →
        ¬ (f.StatusCode = 200 ∧ f.Code = "")) ∧
      (Effect.unmarshalReply ∈ (ReadAndParse xml httpReply reply tag).trace ↔
        (httpReply.StatusCode = 200 ∧ (decodedEnvelope xml httpReply).Fault.Code = "")) := by
  by_cases hfault : httpReply.StatusCode ≠ 200 ∨ (decodedEnvelope xml httpReply).Fault.Code ≠ ""
  · have h := ReadAndParse_fault xml httpReply reply tag hread hparse hfault
    refine ⟨?_, ?_, ?_⟩
    · rw [h]
      exact ⟨fun _ => hfault, fun _ => ⟨_, rfl⟩⟩
    · intro f hf
      rw [h] at hf
      simp only [Option.some.injEq, GoError.fault.injEq] at hf
      rintro ⟨h1, h2⟩
      rw [← hf, decodedEnvelope_StatusCode] at h1
      rw [← hf] at h2
      rcases hfault with hs | hc
      · exact hs h1
      · exact hc h2
    · rw [h]
      constructor
      · intro hmem
        simp at hmem
      · rintro ⟨h1, h2⟩
        rcases hfault with hs | hc
        · exact absurd h1 hs
        · exact absurd h2 hc
  · have hstatus : httpReply.StatusCode = 200 := by
      by_contra h
      exact hfault (Or.inl h)
    have hcode : (decodedEnvelope xml httpReply).Fault.Code = "" := by
      by_contra h
      exact hfault (Or.inr h)
    have h := ReadAndParse_decode xml httpReply reply tag hread hparse hstatus hcode
    have hnot : ∀ f : Fault,
        (ReadAndParse xml httpReply reply tag).err ≠ some (GoError.fault f) := by
      intro f hf
      rw [h] at hf
      cases herr : (xml httpReply.Body.data reply).2 with
      | none => rw [herr] at hf; cases hf
      | some e => rw [herr] at hf; cases hf
    refine ⟨?_, ?_, ?_⟩
    · constructor
      · rintro ⟨f, hf⟩
        exact absurd hf (hnot f)
      · intro hf
        exact absurd hf hfault
    · intro f hf
      exact absurd hf (hnot f)
    · rw [h]
      constructor
      · intro _
        exact ⟨hstatus, hcode⟩
      · intro _
        simp

/-- Witness of C10: scenario B with status 200. -/
theorem ReadAndParse_fault_iff_witness :
    ∃ f : Fault,
      (ReadAndParse xmlUnmarshal (response 200 bodyB) (resultStruct 0) "GetProfiles").err =
        some (GoError.fault f) :=
  (ReadAndParse_fault_iff xmlUnmarshal (response 200 bodyB) (resultStruct 0) "GetProfiles"
    rfl (bodyB_faultParseError 200)).1.mpr
    (Or.inr (by rw [bodyB_decodedEnvelope]; decide))

end Sdk
